import Mathlib

/-!
Verification of the Change Intelligence Engine
(backend/change_intelligence: change_detector.py, breaking_change.py,
impact_analysis.py and their combinator in the package init file).

The Python code is shallowly embedded below.  Machine conventions:

* Python strings are Lean String values; Python lists are Lean List values.
* Python sets are modelled as lists deduplicated in first-occurrence order.
  Python set iteration order is unspecified; none of the verified claims
  depends on that order (they only use set membership, cardinality,
  emptiness, and per-element properties).
* Python dicts keyed by Nat are modelled as total functions with default 0,
  which is extensionally what dict.get(k, 0) provides.
* The regular expressions used by the code are embedded as executable
  scanners, specialised to ASCII text: the character classes for
  whitespace and word characters are the ASCII ones (every input in the
  verified claims is ASCII).
* The call ast.parse(content), whose outcome the detectors consume, is the
  CPython parser and is modelled as an oracle argument of type
  Option PyAst: none models a SyntaxError, some t models a successful
  parse, where t records exactly the data the detectors read from the
  tree walk (every FunctionDef and every ClassDef).  ast.parse is a pure
  function of the text, so call sites that parse the same content twice
  receive the same oracle value.
* difflib.unified_diff and the SequenceMatcher machinery behind it
  (CPython Lib/difflib.py) are embedded in full, including the autojunk
  rule, because detect_changes builds on them.  The worklist loop of
  get_matching_blocks is written with an explicit fuel argument
  (length a + length b + 2); the loop retires at least one unit of its
  size measure per iteration, so this fuel is never exhausted, and every
  verified statement about the loop is independent of the fuel bound or
  is proved on runs that finish within it.
-/

set_option maxHeartbeats 1000000
set_option maxRecDepth 10000

namespace ChangeIntel

/-! ### ASCII character classes and Python string primitives -/

/-- ASCII part of the Python regex class backslash-s (whitespace). -/
def pySpace (c : Char) : Bool :=
  c = ' ' || c = '\t' || c = '\n' || c = '\r' || c = '\x0b' || c = '\x0c'

/-- ASCII part of the Python regex class backslash-w (word character). -/
def wordChar (c : Char) : Bool := c.isAlpha || c.isDigit || c = '_'

/-- The regex class listing the lowercase and uppercase ASCII letters. -/
def asciiAlpha (c : Char) : Bool := c.isAlpha

/-- The regex class of an uppercase ASCII letter. -/
def upperAZ (c : Char) : Bool := 'A' ≤ c && c ≤ 'Z'

/-- The regex class of an uppercase letter, digit or underscore. -/
def upperNum (c : Char) : Bool := upperAZ c || c.isDigit || c = '_'

/-- Characters that str.splitlines treats as line boundaries. -/
def lineBreakChar (c : Char) : Bool :=
  c = '\n' || c = '\r' || c = '\x0b' || c = '\x0c' || c = '\x1c' ||
  c = '\x1d' || c = '\x1e' || c = '\x85' || c = '\u2028' || c = '\u2029'

/-- Worker for str.splitlines(keepends=True): the accumulator holds the
current line in reverse. -/
def splitLinesAux : List Char → List Char → List String
  | [], acc => if acc = [] then [] else [String.mk acc.reverse]
  | '\r' :: '\n' :: rest, acc =>
      String.mk (acc.reverse ++ ['\r', '\n']) :: splitLinesAux rest []
  | c :: rest, acc =>
      if lineBreakChar c then String.mk (acc.reverse ++ [c]) :: splitLinesAux rest []
      else splitLinesAux rest (c :: acc)

/-- Python str.splitlines(keepends=True). -/
def splitlines (s : String) : List String := splitLinesAux s.data []

/-- Python str.strip() with no argument (ASCII whitespace). -/
def pyStrip (s : String) : String :=
  String.mk (((s.data.dropWhile pySpace).reverse.dropWhile pySpace).reverse)

/-- Python str.lower() (ASCII case folding). -/
def pyLower (s : String) : String := String.mk (s.data.map Char.toLower)

/-- Python str.startswith(pre). -/
def strStarts (s pre : String) : Bool := pre.data.isPrefixOf s.data

/-- Python slicing s[n:]. -/
def strDrop (s : String) (n : Nat) : String := String.mk (s.data.drop n)

/-- Python slicing s[:n]. -/
def strTake (s : String) (n : Nat) : String := String.mk (s.data.take n)

/-- Python len(s) in characters. -/
def strLen (s : String) : Nat := s.data.length

/-- Membership of one character list inside another (Python substring test). -/
def listInfix (needle : List Char) : List Char → Bool
  | [] => needle.isPrefixOf []
  | c :: rest => needle.isPrefixOf (c :: rest) || listInfix needle rest

/-- Python substring test: sub in s. -/
def strContains (s sub : String) : Bool := listInfix sub.data s.data

/-- Python count of a single character in a string. -/
def countChar (s : String) (c : Char) : Nat := s.data.count c

/-- Worker for the one-character str.split. -/
def splitCharAux (sep : Char) : List Char → List Char → List String
  | [], acc => [String.mk acc.reverse]
  | c :: rest, acc =>
      if c = sep then String.mk acc.reverse :: splitCharAux sep rest []
      else splitCharAux sep rest (c :: acc)

/-- Python str.split with a one-character separator (the only separators
the engine splits on are the newline, the comma and the equals sign). -/
def pySplitChar (s : String) (sep : Char) : List String := splitCharAux sep s.data []

/-- Length bound used by the termination measures of the scanners below. -/
def dropWhileLenLe (p : Char → Bool) : ∀ l : List Char, (l.dropWhile p).length ≤ l.length
  | [] => by simp [List.dropWhile_nil]
  | c :: rest => by
      rw [List.dropWhile_cons]
      by_cases hc : p c = true
      · rw [if_pos hc]
        have := dropWhileLenLe p rest
        simp only [List.length_cons]
        omega
      · rw [if_neg hc]

/-- Deduplication in first-occurrence order, the list model of iterating a
Python set built by successive insertions. -/
def dedupFirstAux : List String → List String → List String
  | [], _ => []
  | x :: xs, seen =>
      if x ∈ seen then dedupFirstAux xs seen
      else x :: dedupFirstAux xs (x :: seen)

/-- Deduplicate a list of strings keeping first occurrences. -/
def dedupFirst (l : List String) : List String := dedupFirstAux l []

/-- Set difference on the list model: set(a) - set(b). -/
def setDiff (a b : List String) : List String :=
  (dedupFirst a).filter (fun s => decide (s ∉ b))

/-- Set intersection on the list model: set(a) & set(b), iterated in the
first-occurrence order of a. -/
def setInter (a b : List String) : List String :=
  (dedupFirst a).filter (fun s => decide (s ∈ b))

/-- Extensional equality of the sets underlying two lists (Python set
equality between set(a) and set(b)). -/
def setEq (a b : List String) : Bool :=
  a.all (fun s => decide (s ∈ b)) && b.all (fun s => decide (s ∈ a))

/-! ### difflib embedding (CPython Lib/difflib.py, as called with
SequenceMatcher(None, a, b) and unified_diff(a, b, fromfile, tofile,
lineterm=empty string)) -/

/-- Index occurrences of x in b (the dict b2j of SequenceMatcher.__chain_b),
with the autojunk purge: when b has at least 200 elements, an element
occurring more than len(b)/100 + 1 times is popular and is dropped from
the mapping.  The index lists are ascending. -/
def b2j (b : List String) (x : String) : List Nat :=
  let idxs := (List.range b.length).filter (fun i => decide (b.get? i = some x))
  if 200 ≤ b.length ∧ b.length / 100 + 1 < idxs.length then [] else idxs

/-- With isjunk=None (the only way the detector calls SequenceMatcher) the
junk set bjunk is empty, so its membership test is constantly false. -/
def isbjunk : String → Bool := fun _ => false

/-- One row of the find_longest_match inner loop: Python does
(continue when j below blo; break when j at or above bhi). -/
def rowJs (blo bhi : Nat) : List Nat → List Nat
  | [] => []
  | j :: rest =>
      if j < blo then rowJs blo bhi rest
      else if bhi ≤ j then []
      else j :: rowJs blo bhi rest

/-- State of the find_longest_match main loop: the previous-row map j2len
(total with default 0, the dict model) and the best block so far. -/
abbrev FlmState := (Nat → Nat) × (Nat × Nat × Nat)

/-- Processing of one b-index j inside row i of the main loop.  The map
oldLen is the previous-row j2len, read through dict.get(j-1, 0); the key
minus one is taken in the integers, so j = 0 reads the absent key. -/
def flmStep (oldLen : Nat → Nat) (i : Nat) : ((Nat → Nat) × (Nat × Nat × Nat)) → Nat →
    ((Nat → Nat) × (Nat × Nat × Nat)) :=
  fun st j =>
    let k := (if j = 0 then 0 else oldLen (j - 1)) + 1
    let newLen := fun j2 => if j2 = j then k else st.1 j2
    let best := if st.2.2.2 < k then (i + 1 - k, j + 1 - k, k) else st.2
    (newLen, best)

/-- One row of the main loop: the new j2len starts empty and the best
block is carried over. -/
def flmRow (a : List String) (bj : String → List Nat) (blo bhi : Nat)
    (st : FlmState) (i : Nat) : FlmState :=
  (rowJs blo bhi (bj (a.getD i ""))).foldl (flmStep st.1 i) (fun _ => 0, st.2)

/-- The main loop of find_longest_match over the rows of a. -/
def flmMain (a : List String) (bj : String → List Nat) (alo ahi blo bhi : Nat) :
    Nat × Nat × Nat :=
  ((List.range' alo (ahi - alo)).foldl (flmRow a bj blo bhi)
    (fun _ => 0, (alo, blo, 0))).2

/-- Length of the diagonal run ending at cell (i, j) of the main-loop
dynamic-programming table on the self-comparison of l over the full range
(alo = blo = 0, ahi = bhi = length): the value j2len holds at key j at the
end of row i.  Specification only; it is never evaluated. -/
def runl (l : List String) : Nat → Nat → Nat
  | i, j =>
    if j ∈ b2j l (l.getD i "") then
      (if h : 0 < i ∧ 0 < j then runl l (i - 1) (j - 1) else 0) + 1
    else 0
  termination_by i _ => i
  decreasing_by exact Nat.sub_lt h.1 Nat.one_pos

/-- Invariant of the inner loop of find_longest_match on the
self-comparison, after the indices in pre have been processed in row i:
the best block lies on the diagonal inside the sequence, rows before i and
processed cells of row i are dominated, and the new j2len map holds the
run lengths of the processed cells. -/
def InnerInv (l : List String) (i : Nat) (pre : List Nat) (st : FlmState) : Prop :=
  st.2.2.1 = st.2.1 ∧
  st.2.1 + st.2.2.2 ≤ l.length ∧
  (∀ i2, i2 < i → runl l i2 i2 ≤ st.2.2.2) ∧
  (∀ j, st.1 j = if j ∈ pre then runl l i j else 0) ∧
  (∀ j ∈ pre, runl l i j ≤ st.2.2.2)

/-- Invariant of the main loop of find_longest_match on the
self-comparison, after the first m rows: the best block lies on the
diagonal inside the sequence and dominates every processed diagonal run,
and j2len is the last processed row of the table. -/
def OuterInv (l : List String) (m : Nat) (st : FlmState) : Prop :=
  st.2.2.1 = st.2.1 ∧
  st.2.1 + st.2.2.2 ≤ l.length ∧
  (∀ i2, i2 < m → runl l i2 i2 ≤ st.2.2.2) ∧
  (∀ j, st.1 j = if 0 < m then runl l (m - 1) j else 0)

/-- The first extension loop of find_longest_match: grow the best block
backwards over equal non-junk elements.  The fuel bounds the iteration
count; it is instantiated with besti, which the loop decrements. -/
def extendBack (a b : List String) (alo blo : Nat) :
    Nat → Nat × Nat × Nat → Nat × Nat × Nat
  | 0, st => st
  | fuel + 1, (bi, bj2, bs) =>
      if alo < bi ∧ blo < bj2 ∧ isbjunk (b.getD (bj2 - 1) "") = false ∧
          a.getD (bi - 1) "" = b.getD (bj2 - 1) "" then
        extendBack a b alo blo fuel (bi - 1, bj2 - 1, bs + 1)
      else (bi, bj2, bs)

/-- The second extension loop: grow the best block forwards over equal
non-junk elements.  The fuel is instantiated with ahi. -/
def extendFwd (a b : List String) (ahi bhi : Nat) :
    Nat → Nat × Nat × Nat → Nat × Nat × Nat
  | 0, st => st
  | fuel + 1, (bi, bj2, bs) =>
      if bi + bs < ahi ∧ bj2 + bs < bhi ∧ isbjunk (b.getD (bj2 + bs) "") = false ∧
          a.getD (bi + bs) "" = b.getD (bj2 + bs) "" then
        extendFwd a b ahi bhi fuel (bi, bj2, bs + 1)
      else (bi, bj2, bs)

/-- The third extension loop (backwards over junk): with isjunk=None the
junk test is false, so the loop body never runs. -/
def extendBackJunk (a b : List String) (alo blo : Nat) :
    Nat → Nat × Nat × Nat → Nat × Nat × Nat
  | 0, st => st
  | fuel + 1, (bi, bj2, bs) =>
      if alo < bi ∧ blo < bj2 ∧ isbjunk (b.getD (bj2 - 1) "") = true ∧
          a.getD (bi - 1) "" = b.getD (bj2 - 1) "" then
        extendBackJunk a b alo blo fuel (bi - 1, bj2 - 1, bs + 1)
      else (bi, bj2, bs)

/-- The fourth extension loop (forwards over junk), likewise inert. -/
def extendFwdJunk (a b : List String) (ahi bhi : Nat) :
    Nat → Nat × Nat × Nat → Nat × Nat × Nat
  | 0, st => st
  | fuel + 1, (bi, bj2, bs) =>
      if bi + bs < ahi ∧ bj2 + bs < bhi ∧ isbjunk (b.getD (bj2 + bs) "") = true ∧
          a.getD (bi + bs) "" = b.getD (bj2 + bs) "" then
        extendFwdJunk a b ahi bhi fuel (bi, bj2, bs + 1)
      else (bi, bj2, bs)

/-- SequenceMatcher.find_longest_match on the range a[alo:ahi], b[blo:bhi]. -/
def findLongestMatch (a b : List String) (bj : String → List Nat)
    (alo ahi blo bhi : Nat) : Nat × Nat × Nat :=
  let m0 := flmMain a bj alo ahi blo bhi
  let m1 := extendBack a b alo blo m0.1 m0
  let m2 := extendFwd a b ahi bhi ahi m1
  let m3 := extendBackJunk a b alo blo m2.1 m2
  extendFwdJunk a b ahi bhi ahi m3

/-- Worklist loop of get_matching_blocks.  Python pops from the end of the
queue and pushes the low child before the high child, so the high child is
popped first; the head of the Lean list is the top of that stack. -/
def mbLoop (a b : List String) (bj : String → List Nat) :
    Nat → List (Nat × Nat × Nat × Nat) → List (Nat × Nat × Nat) →
    List (Nat × Nat × Nat)
  | _, [], acc => acc
  | 0, _ :: _, acc => acc
  | fuel + 1, (alo, ahi, blo, bhi) :: rest, acc =>
      let m := findLongestMatch a b bj alo ahi blo bhi
      let i := m.1
      let j := m.2.1
      let k := m.2.2
      if k = 0 then mbLoop a b bj fuel rest acc
      else
        mbLoop a b bj fuel
          ((if i + k < ahi ∧ j + k < bhi then [(i + k, ahi, j + k, bhi)] else []) ++
           (if alo < i ∧ blo < j then [(alo, i, blo, j)] else []) ++ rest)
          (acc ++ [(i, j, k)])

/-- Lexicographic comparison of matching blocks, the order list.sort uses on
the Python triples. -/
def blockLe (x y : Nat × Nat × Nat) : Bool :=
  decide (x.1 < y.1) ||
    (decide (x.1 = y.1) &&
      (decide (x.2.1 < y.2.1) ||
        (decide (x.2.1 = y.2.1) && decide (x.2.2 ≤ y.2.2))))

/-- Stable insertion of a block into a sorted list. -/
def blockInsert (x : Nat × Nat × Nat) : List (Nat × Nat × Nat) → List (Nat × Nat × Nat)
  | [] => [x]
  | y :: ys => if blockLe y x then y :: blockInsert x ys else x :: y :: ys

/-- Stable sort of the matching blocks; extensionally equal to Python
list.sort (both are stable sorts for blockLe, and our block lists never
contain distinct equal-keyed entries). -/
def blockSort : List (Nat × Nat × Nat) → List (Nat × Nat × Nat)
  | [] => []
  | x :: xs => blockInsert x (blockSort xs)

/-- The adjacency-collapsing pass at the end of get_matching_blocks, run
with the initial state i1 = j1 = k1 = 0. -/
def collapseAdjacent : List (Nat × Nat × Nat) → Nat × Nat × Nat → List (Nat × Nat × Nat)
  | [], (i1, j1, k1) => if k1 ≠ 0 then [(i1, j1, k1)] else []
  | (i2, j2, k2) :: rest, (i1, j1, k1) =>
      if i1 + k1 = i2 ∧ j1 + k1 = j2 then collapseAdjacent rest (i1, j1, k1 + k2)
      else (if k1 ≠ 0 then [(i1, j1, k1)] else []) ++ collapseAdjacent rest (i2, j2, k2)

/-- SequenceMatcher.get_matching_blocks, terminal dummy block included. -/
def getMatchingBlocks (a b : List String) : List (Nat × Nat × Nat) :=
  let blocks := mbLoop a b (b2j b) (a.length + b.length + 2)
    [(0, a.length, 0, b.length)] []
  collapseAdjacent (blockSort blocks) (0, 0, 0) ++ [(a.length, b.length, 0)]

/-- One opcode (tag, i1, i2, j1, j2) of SequenceMatcher.get_opcodes. -/
structure Opcode where
  tag : String
  i1 : Nat
  i2 : Nat
  j1 : Nat
  j2 : Nat
deriving DecidableEq

/-- The opcode-emitting walk over the matching blocks. -/
def opcodesAux : List (Nat × Nat × Nat) → Nat → Nat → List Opcode
  | [], _, _ => []
  | (ai, bj2, size) :: rest, i, j =>
      let tag := if i < ai ∧ j < bj2 then "replace"
        else if i < ai then "delete"
        else if j < bj2 then "insert"
        else ""
      (if tag ≠ "" then [⟨tag, i, ai, j, bj2⟩] else []) ++
      (if size ≠ 0 then [⟨"equal", ai, ai + size, bj2, bj2 + size⟩] else []) ++
      opcodesAux rest (ai + size) (bj2 + size)

/-- SequenceMatcher.get_opcodes. -/
def getOpcodes (a b : List String) : List Opcode := opcodesAux (getMatchingBlocks a b) 0 0

/-- Trim of a leading equal opcode in get_grouped_opcodes (the max calls are
taken in the natural numbers; Python subtraction below zero is dominated by
the max against a nonnegative number, so the values agree). -/
def trimHead (n : Nat) : List Opcode → List Opcode
  | [] => []
  | c :: rest =>
      if c.tag = "equal" then
        ⟨c.tag, max c.i1 (c.i2 - n), c.i2, max c.j1 (c.j2 - n), c.j2⟩ :: rest
      else c :: rest

/-- Trim of a trailing equal opcode in get_grouped_opcodes. -/
def trimLast (n : Nat) (codes : List Opcode) : List Opcode :=
  match codes.getLast? with
  | none => []
  | some c =>
      if c.tag = "equal" then
        codes.dropLast ++ [⟨c.tag, c.i1, min c.i2 (c.i1 + n), c.j1, min c.j2 (c.j1 + n)⟩]
      else codes

/-- The grouping fold of get_grouped_opcodes, accumulating the current group. -/
def groupsAux (n : Nat) : List Opcode → List Opcode → List (List Opcode)
  | [], group =>
      if group ≠ [] ∧ ¬(group.length = 1 ∧ (group.headD ⟨"", 0, 0, 0, 0⟩).tag = "equal")
      then [group] else []
  | c :: rest, group =>
      if c.tag = "equal" ∧ n + n < c.i2 - c.i1 then
        (group ++ [⟨c.tag, c.i1, min c.i2 (c.i1 + n), c.j1, min c.j2 (c.j1 + n)⟩]) ::
          groupsAux n rest [⟨c.tag, max c.i1 (c.i2 - n), c.i2, max c.j1 (c.j2 - n), c.j2⟩]
      else groupsAux n rest (group ++ [c])

/-- SequenceMatcher.get_grouped_opcodes with context n. -/
def getGroupedOpcodes (a b : List String) (n : Nat) : List (List Opcode) :=
  let codes := getOpcodes a b
  let codes := if codes = [] then [⟨"equal", 0, 1, 0, 1⟩] else codes
  groupsAux n (trimLast n (trimHead n codes)) []

/-- Python slice l[i:j]. -/
def sliceList (l : List String) (i j : Nat) : List String := (l.drop i).take (j - i)

/-- difflib._format_range_unified. -/
def formatRangeUnified (start stop : Nat) : String :=
  let length := stop - start
  if length = 1 then toString (start + 1)
  else toString (if length = 0 then start else start + 1) ++ "," ++ toString length

/-- The body lines a unified-diff group expands to. -/
def groupLines (a b : List String) (g : List Opcode) : List String :=
  (g.map (fun c =>
    if c.tag = "equal" then (sliceList a c.i1 c.i2).map (fun s => " " ++ s)
    else
      (if c.tag = "replace" ∨ c.tag = "delete"
        then (sliceList a c.i1 c.i2).map (fun s => "-" ++ s) else []) ++
      (if c.tag = "replace" ∨ c.tag = "insert"
        then (sliceList b c.j1 c.j2).map (fun s => "+" ++ s) else []))).flatten

/-- The header and body lines of one group. -/
def groupChunk (a b : List String) (g : List Opcode) : List String :=
  let first := g.headD ⟨"", 0, 0, 0, 0⟩
  let last := g.getLastD ⟨"", 0, 0, 0, 0⟩
  ("@@ -" ++ formatRangeUnified first.i1 last.i2 ++ " +" ++
    formatRangeUnified first.j1 last.j2 ++ " @@") :: groupLines a b g

/-- difflib.unified_diff(a, b, fromfile, tofile, lineterm=empty), as a list.
The two file headers are emitted before the first group only. -/
def unifiedDiff (a b : List String) (fromfile tofile : String) : List String :=
  match getGroupedOpcodes a b 3 with
  | [] => []
  | g :: gs =>
      ["--- " ++ fromfile, "+++ " ++ tofile] ++
      ((g :: gs).map (groupChunk a b)).flatten

/-! ### Regex scanners

Each MULTILINE regex of the engine is anchored at a caret, so matches start
only at line starts; the scanners below therefore work line by line on the
newline-split text.  A leading backslash-s-star can in principle swallow
whole blank lines and reach a definition on a later line, but such a match
captures exactly what the later line-start match captures, so the per-line
model yields the same match set. -/

/-- Python content.split(backslash-n), the line list the regexes run over. -/
def pyLines (content : String) : List String := pySplitChar content '\n'

/-- Per-line match of the pattern caret backslash-s-star def backslash-s-plus
(word-plus) backslash-s-star lparen, capturing the name. -/
def matchDefName (line : String) : Option String :=
  match line.data.dropWhile pySpace with
  | 'd' :: 'e' :: 'f' :: c :: rest =>
      if pySpace c then
        let r := rest.dropWhile pySpace
        let name := r.takeWhile wordChar
        if name = [] then none
        else
          match (r.dropWhile wordChar).dropWhile pySpace with
          | '(' :: _ => some (String.mk name)
          | _ => none
      else none
  | _ => none

/-- Per-line match of the public-method pattern, whose captured name is one
ASCII letter followed by at least one word character (so a single-letter
name does not match). -/
def matchPublicDefName (line : String) : Option String :=
  match line.data.dropWhile pySpace with
  | 'd' :: 'e' :: 'f' :: c :: rest =>
      if pySpace c then
        match rest.dropWhile pySpace with
        | c0 :: r1 =>
            if asciiAlpha c0 then
              let w := r1.takeWhile wordChar
              if w = [] then none
              else
                match (r1.dropWhile wordChar).dropWhile pySpace with
                | '(' :: _ => some (String.mk (c0 :: w))
                | _ => none
            else none
        | [] => none
      else none
  | _ => none

/-- Per-line match of caret backslash-s-star class backslash-s-plus
(word-plus), capturing the name. -/
def matchClassName (line : String) : Option String :=
  match line.data.dropWhile pySpace with
  | 'c' :: 'l' :: 'a' :: 's' :: 's' :: c :: rest =>
      if pySpace c then
        let name := (rest.dropWhile pySpace).takeWhile wordChar
        if name = [] then none else some (String.mk name)
      else none
  | _ => none

/-- Per-line match of the public-class pattern (letter then at least one
word character). -/
def matchPublicClassName (line : String) : Option String :=
  match line.data.dropWhile pySpace with
  | 'c' :: 'l' :: 'a' :: 's' :: 's' :: c :: rest =>
      if pySpace c then
        match rest.dropWhile pySpace with
        | c0 :: r1 =>
            if asciiAlpha c0 then
              let w := r1.takeWhile wordChar
              if w = [] then none else some (String.mk (c0 :: w))
            else none
        | [] => none
      else none
  | _ => none

/-- Per-line match of the constant pattern: an uppercase letter, at least
one more character from the uppercase-digit-underscore class, optional
whitespace, then an equals sign. -/
def matchConstName (line : String) : Option String :=
  match line.data.dropWhile pySpace with
  | c0 :: r1 =>
      if upperAZ c0 then
        let w := r1.takeWhile upperNum
        if w = [] then none
        else
          match (r1.dropWhile upperNum).dropWhile pySpace with
          | '=' :: _ => some (String.mk (c0 :: w))
          | _ => none
      else none
  | [] => none

/-- Per-line match of caret import backslash-s-plus (nonspace-plus); note
the pattern has no leading whitespace allowance. -/
def matchImport (line : String) : Option String :=
  match line.data with
  | 'i' :: 'm' :: 'p' :: 'o' :: 'r' :: 't' :: c :: rest =>
      if pySpace c then
        let m := (rest.dropWhile pySpace).takeWhile (fun c2 => !pySpace c2)
        if m = [] then none else some (String.mk m)
      else none
  | _ => none

/-- Per-line match of caret from backslash-s-plus (nonspace-plus)
backslash-s-plus import, capturing the module. -/
def matchFromImport (line : String) : Option String :=
  match line.data with
  | 'f' :: 'r' :: 'o' :: 'm' :: c :: rest =>
      if pySpace c then
        let r := rest.dropWhile pySpace
        let m := r.takeWhile (fun c2 => !pySpace c2)
        if m = [] then none
        else
          match r.dropWhile (fun c2 => !pySpace c2) with
          | c2 :: rest2 =>
              if pySpace c2 then
                if ['i', 'm', 'p', 'o', 'r', 't'].isPrefixOf (rest2.dropWhile pySpace)
                then some (String.mk m) else none
              else none
          | [] => none
      else none
  | _ => none

/-! ### ChangeDetector (change_detector.py) -/

/-- The record detect_changes returns. -/
structure DiffInfo where
  changed : Bool
  files_changed : List String
  reason : String
  change_summary : String
  added_lines : Nat
  removed_lines : Nat
  modified_lines : Nat
deriving DecidableEq

namespace ChangeDetector

/-- Method _extract_functions: MULTILINE findall of the def pattern,
returned as an ordered list (duplicates kept). -/
def extract_functions (content : String) : List String :=
  (pyLines content).filterMap matchDefName

/-- Method _extract_classes: MULTILINE findall of the class pattern. -/
def extract_classes (content : String) : List String :=
  (pyLines content).filterMap matchClassName

/-- Method _extract_imports: the union of the import and from-import
matches, built as a set. -/
def extract_imports (content : String) : List String :=
  dedupFirst ((pyLines content).filterMap matchImport ++
    (pyLines content).filterMap matchFromImport)

/-- The control-flow keywords scanned for in changed lines. -/
def logicKeywords : List String :=
  ["if", "elif", "else", "for", "while", "return", "raise", "except"]

/-- Method _generate_reason. -/
def generate_reason (old_content new_content : String)
    (added_lines removed_lines : Nat) (context_lines : List String) : String :=
  let old_functions := extract_functions old_content
  let new_functions := extract_functions new_content
  let added_functions := setDiff new_functions old_functions
  let removed_functions := setDiff old_functions new_functions
  let reasons :=
    (if added_functions ≠ [] then
      ["Added " ++ toString added_functions.length ++ " function(s): " ++
        String.intercalate ", " (added_functions.take 3)] else []) ++
    (if removed_functions ≠ [] then
      ["Removed " ++ toString removed_functions.length ++ " function(s): " ++
        String.intercalate ", " (removed_functions.take 3)] else [])
  let old_imports := extract_imports old_content
  let new_imports := extract_imports new_content
  let reasons := reasons ++
    (if setEq old_imports new_imports = false then
      (let added_imports := setDiff new_imports old_imports
       let removed_imports := setDiff old_imports new_imports
       (if added_imports ≠ [] then
         ["Added imports: " ++ String.intercalate ", " (added_imports.take 3)] else []) ++
       (if removed_imports ≠ [] then
         ["Removed imports: " ++ String.intercalate ", " (removed_imports.take 3)] else []))
     else [])
  let old_classes := extract_classes old_content
  let new_classes := extract_classes new_content
  let added_classes := setDiff new_classes old_classes
  let removed_classes := setDiff old_classes new_classes
  let reasons := reasons ++
    (if added_classes ≠ [] then
      ["Added " ++ toString added_classes.length ++ " class(es): " ++
        String.intercalate ", " (added_classes.take 2)] else []) ++
    (if removed_classes ≠ [] then
      ["Removed " ++ toString removed_classes.length ++ " class(es): " ++
        String.intercalate ", " (removed_classes.take 2)] else [])
  let reasons :=
    if reasons = [] then
      [if removed_lines < added_lines then
        "Code expanded: " ++ toString (added_lines - removed_lines) ++ " net new lines"
       else if added_lines < removed_lines then
        "Code reduced: " ++ toString (removed_lines - added_lines) ++ " net removed lines"
       else
        "Code modified: " ++ toString added_lines ++ " lines added, " ++
          toString removed_lines ++ " lines removed"]
    else reasons
  let joined := pyLower (String.intercalate " " context_lines)
  let reasons := reasons ++
    (if logicKeywords.any (fun kw => strContains joined kw) then
      ["Logic flow or control structures were modified"] else [])
  if reasons ≠ [] then String.intercalate "; " reasons
  else "Content changed (no specific patterns detected)"

/-- Method _generate_summary. -/
def generate_summary (file_path : String) (added_lines removed_lines : Nat)
    (sample_lines : List String) : String :=
  let parts := ["File " ++ file_path ++ " was modified."] ++
    (if 0 < added_lines ∨ 0 < removed_lines then
      [toString added_lines ++ " line(s) added, " ++
        toString removed_lines ++ " line(s) removed."] else []) ++
    (if sample_lines ≠ [] then
      "Sample changes include:" ::
        ((sample_lines.take 3).filterMap (fun line =>
          if pyStrip line ≠ "" then
            some ("  - " ++
              (if 80 < strLen line then strTake line 80 ++ "..." else line))
          else none))
     else [])
  String.intercalate " " parts

/-- Method detect_changes. -/
def detect_changes (old_content new_content file_path : String) : DiffInfo :=
  let old_lines := splitlines old_content
  let new_lines := splitlines new_content
  let diff := unifiedDiff old_lines new_lines (file_path ++ " (old)") (file_path ++ " (new)")
  if diff = [] then
    { changed := false, files_changed := [], reason := "No changes detected",
      change_summary := "The file content is identical.",
      added_lines := 0, removed_lines := 0, modified_lines := 0 }
  else
    let diff_lines := diff.filter (fun line =>
      !(strStarts line "---" || strStarts line "+++" || strStarts line "@@"))
    let added_count := (diff_lines.filter (fun line =>
      strStarts line "+" && !strStarts line "+++")).length
    let removed_count := (diff_lines.filter (fun line =>
      strStarts line "-" && !strStarts line "---")).length
    let context_lines := diff_lines.filterMap (fun line =>
      if strStarts line "+" && !strStarts line "+++" then some (pyStrip (strDrop line 1))
      else if strStarts line "-" && !strStarts line "---" then some (pyStrip (strDrop line 1))
      else none)
    { changed := true,
      files_changed := [file_path],
      reason := generate_reason old_content new_content added_count removed_count context_lines,
      change_summary := generate_summary file_path added_count removed_count
        (context_lines.take 5),
      added_lines := added_count,
      removed_lines := removed_count,
      modified_lines := removed_count + added_count }

end ChangeDetector

/-! ### BreakingChangeDetector (breaking_change.py) -/

/-- The FunctionSignature dataclass. -/
structure FunctionSignature where
  name : String
  args : List String
  defaults_count : Nat
  varargs : Bool
  kwargs : Bool
  line_number : Nat
deriving DecidableEq

/-- The data a successful ast.parse run yields to the detectors: the
FunctionSignature of every FunctionDef node of the walked tree, and the
name of every ClassDef node. -/
structure PyAst where
  functions : List FunctionSignature
  classes : List String
deriving DecidableEq

/-- One entry of the changes list of a breaking-change report. -/
structure ChangeEvent where
  type : String
  description : String
  location : String
  severity : String
deriving DecidableEq

/-- The record detect_breaking_changes returns. -/
structure BreakingReport where
  breaking_change : Bool
  details : String
  severity : String
  changes : List ChangeEvent
  file : String
deriving DecidableEq

/-- Ordinal rank of a severity word: none, low, medium, high in that order. -/
def sevRank : String → Nat
  | "low" => 1
  | "medium" => 2
  | "high" => 3
  | _ => 0

/-- The maximum severity rank across a list of events (0 when empty). -/
def maxSeverityRank (events : List ChangeEvent) : Nat :=
  (events.map (fun e => sevRank e.severity)).foldr max 0

namespace BreakingChangeDetector

/-- Capture of the fallback pattern after the opening parenthesis: the
non-greedy dot-star stops at the first closing parenthesis that is followed
(after optional whitespace) by a colon; on failure at one closing
parenthesis the scan resumes behind it, which is the regex backtracking. -/
def capParams : List Char → List Char → Option (List Char)
  | [], _ => none
  | ')' :: rest, acc =>
      if (rest.dropWhile pySpace).head? = some ':' then some acc.reverse
      else capParams rest (')' :: acc)
  | c :: rest, acc => capParams rest (c :: acc)

/-- Per-line re.match of the fallback pattern caret backslash-s-star def
backslash-s-plus (word-plus) backslash-s-star lparen (dot-star-lazy) rparen
backslash-s-star colon, capturing name and parameter text. -/
def matchDefParams (line : String) : Option (String × String) :=
  match line.data.dropWhile pySpace with
  | 'd' :: 'e' :: 'f' :: c :: rest =>
      if pySpace c then
        let r := rest.dropWhile pySpace
        let name := r.takeWhile wordChar
        if name = [] then none
        else
          match (r.dropWhile wordChar).dropWhile pySpace with
          | '(' :: r2 => (capParams r2 []).map (fun ps => (String.mk name, String.mk ps))
          | _ => none
      else none
  | _ => none

/-- The parameter-text heuristics of _extract_functions_regex: split on
commas, strip default assignments, count equals signs, test for the
variadic markers by substring, drop empty entries, and erase asterisks
(the second Python replace call, for double asterisks, has nothing left to
erase after the first and is a no-op). -/
def parseParams (params_str : String) : List String × Nat × Bool × Bool :=
  if pyStrip params_str ≠ "" then
    let params := (pySplitChar params_str ',').map (fun p =>
      pyStrip ((pySplitChar (pyStrip p) '=').headD ""))
    let defaults_count := countChar params_str '='
    let varargs := strContains params_str "*args" || strContains params_str "*args,"
    let kwargs := strContains params_str "**kwargs" || strContains params_str "**kwargs,"
    let params := (params.filter (fun p => p ≠ "")).map (fun p =>
      String.mk (p.data.filter (fun c => c ≠ '*')))
    (params, defaults_count, varargs, kwargs)
  else ([], 0, false, false)

/-- Method _extract_functions_regex, enumerating lines from one. -/
def extract_functions_regex (content : String) : List FunctionSignature :=
  (pyLines content).enum.filterMap (fun p =>
    match matchDefParams p.2 with
    | some (nm, ps) =>
        let q := parseParams ps
        some { name := nm, args := q.1, defaults_count := q.2.1,
               varargs := q.2.2.1, kwargs := q.2.2.2, line_number := p.1 + 1 }
    | none => none)

/-- Method _extract_function_signatures: the AST walk when ast.parse
succeeds, the regex fallback when it raises a SyntaxError. -/
def extract_function_signatures (content : String) (tree : Option PyAst) :
    List FunctionSignature :=
  match tree with
  | some t => t.functions
  | none => extract_functions_regex content

/-- Method _extract_classes of the breaking-change detector (a set). -/
def extract_classes (content : String) (tree : Option PyAst) : List String :=
  match tree with
  | some t => dedupFirst t.classes
  | none => dedupFirst ((pyLines content).filterMap matchClassName)

/-- Method _compare_signatures.  The required-parameter counts are computed
in the integers, as Python does. -/
def compare_signatures (old_sig new_sig : FunctionSignature) : Option String :=
  let old_required : Int := (old_sig.args.length : Int) - (old_sig.defaults_count : Int)
  let new_required : Int := (new_sig.args.length : Int) - (new_sig.defaults_count : Int)
  let changes :=
    (if old_required < new_required then
      ["added " ++ toString (new_required - old_required) ++ " required parameter(s)"]
     else []) ++
    (if new_sig.args.length < old_sig.args.length then
      ["removed parameter(s): " ++
        String.intercalate ", " (old_sig.args.drop new_sig.args.length)]
     else []) ++
    (let common_params := setInter old_sig.args new_sig.args
     if common_params ≠ [] ∧
        old_sig.args.take common_params.length ≠ new_sig.args.take common_params.length
     then ["parameter order changed"] else []) ++
    (if old_sig.varargs = true ∧ new_sig.varargs = false then ["removed *args"] else []) ++
    (if old_sig.kwargs = true ∧ new_sig.kwargs = false then ["removed **kwargs"] else [])
  if changes ≠ [] then some (String.intercalate "; " changes) else none

/-- Method _detect_removed_public_attributes. -/
def detect_removed_public_attributes (old_content new_content : String) :
    List ChangeEvent :=
  let old_methods := (pyLines old_content).filterMap matchPublicDefName
  let new_methods := (pyLines new_content).filterMap matchPublicDefName
  let removed_methods := setDiff old_methods new_methods
  removed_methods.map (fun m =>
    { type := "method_removed",
      description := "Public method \x27" ++ m ++ "\x27 was removed",
      location := "unknown", severity := "medium" })

/-- The dict comprehension keyed on names: the last signature with a given
name wins. -/
def lookupSig (fs : List FunctionSignature) (n : String) : Option FunctionSignature :=
  (fs.filter (fun f => f.name == n)).getLast?

/-- The changes list that detect_breaking_changes accumulates: removed
functions, changed signatures of common functions, removed classes, then
removed public methods, in the order of the source. -/
def breakingEvents (old_content new_content file_path : String)
    (oldTree newTree : Option PyAst) : List ChangeEvent :=
  let old_functions := extract_function_signatures old_content oldTree
  let new_functions := extract_function_signatures new_content newTree
  let old_func_names := dedupFirst (old_functions.map (fun f => f.name))
  let new_func_names := dedupFirst (new_functions.map (fun f => f.name))
  let removed_functions := old_func_names.filter (fun s => decide (s ∉ new_func_names))
  let removedEvents := removed_functions.map (fun n =>
    { type := "function_removed",
      description := "Function \x27" ++ n ++ "\x27 was removed",
      location := file_path, severity := "high" : ChangeEvent })
  let commonNames := old_func_names.filter (fun s => decide (s ∈ new_func_names))
  let sigEvents := commonNames.filterMap (fun n =>
    match lookupSig old_functions n, lookupSig new_functions n with
    | some old_sig, some new_sig =>
        match compare_signatures old_sig new_sig with
        | some sig_changes => some
            { type := "signature_changed",
              description := "Function \x27" ++ n ++ "\x27 signature changed: " ++ sig_changes,
              location := file_path ++ ":" ++ toString new_sig.line_number,
              severity := "high" : ChangeEvent }
        | none => none
    | _, _ => none)
  let old_classes := extract_classes old_content oldTree
  let new_classes := extract_classes new_content newTree
  let removed_classes := old_classes.filter (fun s => decide (s ∉ new_classes))
  let classEvents := removed_classes.map (fun n =>
    { type := "class_removed",
      description := "Class \x27" ++ n ++ "\x27 was removed",
      location := file_path, severity := "high" : ChangeEvent })
  removedEvents ++ sigEvents ++ classEvents ++
    detect_removed_public_attributes old_content new_content

/-- Method detect_breaking_changes, taking the parse oracle for each side. -/
def detect_breaking_changes (old_content new_content file_path : String)
    (oldTree newTree : Option PyAst) : BreakingReport :=
  let changes := breakingEvents old_content new_content file_path oldTree newTree
  let severity :=
    if changes.any (fun c => c.severity == "high") then "high"
    else if changes.any (fun c => c.severity == "medium") then "medium"
    else if changes ≠ [] then "low"
    else "none"
  let details :=
    if changes ≠ [] then String.intercalate "; " (changes.map (fun c => c.description))
    else "No breaking changes detected"
  { breaking_change := decide (changes ≠ []), details := details,
    severity := severity, changes := changes, file := file_path }

end BreakingChangeDetector

/-! ### ImpactAnalyzer (impact_analysis.py) -/

/-- The record analyze_impact returns. -/
structure ImpactInfo where
  impact : List String
  affected_modules : List String
  outdated_docs : List String
  affected_users : List String
  recommendations : List String
  file : String
  has_breaking_changes : Bool
deriving DecidableEq

namespace ImpactAnalyzer

/-- Method _extract_exports: public functions, public classes and
constants, collected into one set. -/
def extract_exports (content : String) : List String :=
  dedupFirst ((pyLines content).filterMap matchPublicDefName ++
    (pyLines content).filterMap matchPublicClassName ++
    (pyLines content).filterMap matchConstName)

/-- Try the signature-header part of the _get_function_signature_string
pattern at one anchor position: optional whitespace, def, whitespace, the
literal function name, optional whitespace, an opening parenthesis.
Returns the text after the parenthesis. -/
def sigHeaderAt (name : List Char) (cs : List Char) : Option (List Char) :=
  match cs.dropWhile pySpace with
  | 'd' :: 'e' :: 'f' :: c :: rest =>
      if pySpace c then
        let r := rest.dropWhile pySpace
        if name.isPrefixOf r then
          match (r.drop name.length).dropWhile pySpace with
          | '(' :: r3 => some r3
          | _ => none
        else none
      else none
  | _ => none

/-- The re.search of _get_function_signature_string with MULTILINE and
DOTALL: anchors are the start of the text and each position after a
newline; at each anchor the header is matched and the lazy capture runs to
the first closing parenthesis followed by optional whitespace and a colon,
across line ends (DOTALL). -/
def sigSearchAux (name : List Char) : Nat → List Char → Option (List Char)
  | 0, _ => none
  | fuel + 1, cs =>
      let res := match sigHeaderAt name cs with
        | some r3 => BreakingChangeDetector.capParams r3 []
        | none => none
      match res with
      | some cap => some cap
      | none =>
          match cs.dropWhile (fun c => c ≠ '\n') with
          | [] => none
          | _ :: rest => sigSearchAux name fuel rest

/-- The anchor loop, with a fuel of one more than the text length; each
step discards at least the first character (the tail of a dropWhile result
is shorter than the input), so the fuel is never exhausted. -/
def sigSearch (name : List Char) (cs : List Char) : Option (List Char) :=
  sigSearchAux name (cs.length + 1) cs

/-- Method _get_function_signature_string: the captured parameter text, or
the empty string when the search fails. -/
def get_function_signature_string (content func_name : String) : String :=
  match sigSearch func_name.data content.data with
  | some cap => String.mk cap
  | none => ""

/-- Method _find_changed_exports: a common export is changed when it is a
function on both sides and its captured signature text differs. -/
def find_changed_exports (old_content new_content : String)
    (common_exports : List String) : List String :=
  let old_funcs := ChangeDetector.extract_functions old_content
  let new_funcs := ChangeDetector.extract_functions new_content
  common_exports.filter (fun e => decide (e ∈ old_funcs ∧ e ∈ new_funcs ∧
    get_function_signature_string old_content e ≠
      get_function_signature_string new_content e))

/-- Method _find_potential_dependents.  The loop body of the source is a
placeholder (pass), so no dependent is ever produced. -/
def find_potential_dependents (source_file : String) (removed_exports : List String)
    (project_files : List String) : List String :=
  []

/-- First triple double-quote occurrence; returns the text after it. -/
def findTripleQuote : List Char → Option (List Char)
  | [] => none
  | c :: rest =>
      if ['"', '"', '"'].isPrefixOf (c :: rest) then some ((c :: rest).drop 3)
      else findTripleQuote rest

/-- Length bound for the docstring scanner termination. -/
def findTripleQuoteLen : ∀ l : List Char, ∀ r, findTripleQuote l = some r →
    r.length < l.length
  | [], r => by intro hr; simp [findTripleQuote] at hr
  | c :: rest, r => by
      intro hr
      rw [findTripleQuote] at hr
      by_cases hp : ['"', '"', '"'].isPrefixOf (c :: rest) = true
      · rw [if_pos hp] at hr
        cases hr
        simp only [List.length_drop, List.length_cons]
        omega
      · rw [if_neg hp] at hr
        have := findTripleQuoteLen rest r hr
        simp only [List.length_cons]
        omega

def docstringCountAux : Nat → List Char → Nat
  | 0, _ => 0
  | fuel + 1, l =>
      match l with
      | [] => 0
      | c :: rest =>
          if ['"', '"', '"'].isPrefixOf (c :: rest) then
            match findTripleQuote ((c :: rest).drop 3) with
            | some rest2 => 1 + docstringCountAux fuel rest2
            | none => 0
          else docstringCountAux fuel rest

/-- Count of the non-overlapping matches of the docstring pattern (triple
quote, lazy dot-star with DOTALL, triple quote): an opening triple quote
pairs with the next triple quote; if none follows, neither that opening nor
anything later can match, since a later opening would itself be a triple
quote occurrence.  The fuel of one more than the text length is never
exhausted: every step strictly shortens the text (findTripleQuoteLen). -/
def docstringCount (l : List Char) : Nat := docstringCountAux (l.length + 1) l

def typeHintCountAux : Nat → List Char → Nat
  | 0, _ => 0
  | fuel + 1, l =>
      match l with
      | [] => 0
      | '-' :: '>' :: rest =>
          let t := rest.dropWhile pySpace
          if (t.takeWhile wordChar) ≠ [] then 1 + typeHintCountAux fuel (t.dropWhile wordChar)
          else typeHintCountAux fuel ('>' :: rest)
      | _ :: rest => typeHintCountAux fuel rest

/-- Count of the non-overlapping matches of the return-annotation pattern
(minus, greater-than, optional whitespace, at least one word character).
The fuel of one more than the text length is never exhausted: every step
strictly shortens the text. -/
def typeHintCount (l : List Char) : Nat := typeHintCountAux (l.length + 1) l

def raiseCountAux : Nat → Bool → List Char → Nat
  | 0, _, _ => 0
  | fuel + 1, prevW, l =>
      match l with
      | 'r' :: 'a' :: 'i' :: 's' :: 'e' :: rest =>
          if prevW = false ∧ (rest.head?.map pySpace).getD false = true then
            1 + raiseCountAux fuel false (rest.dropWhile pySpace)
          else raiseCountAux fuel true ('a' :: 'i' :: 's' :: 'e' :: rest)
      | c :: rest => raiseCountAux fuel (wordChar c) rest
      | [] => 0

/-- Count of the matches of the raise pattern (word boundary, raise, at
least one whitespace character).  The boolean records whether the previous
character was a word character, which decides the boundary.  The fuel of
one more than the text length is never exhausted: every step strictly
shortens the text. -/
def raiseCount (prevW : Bool) (l : List Char) : Nat :=
  raiseCountAux (l.length + 1) prevW l

/-- The capture of the alternation (word-plus Exception, else word-plus
Error) inside a word run w: the regex takes the longest prefix of w that
ends in the literal and has at least one character before it, trying the
Exception alternative first. -/
def longestSuffixCapture (w pat : List Char) : Option (List Char) :=
  (List.range (w.length + 1)).reverse.findSome? (fun k =>
    if pat.length < k ∧ pat.isSuffixOf (w.take k) then some (w.take k) else none)

/-- The raised exception-type names found by the findall of the pattern
raise whitespace (word-plus Exception or word-plus Error), with the word
boundary before raise.  After a successful capture the scan resumes behind
the captured text; a failed capture falls through like a failed raise
match. -/
def raisedTypesAux : Nat → Bool → List Char → List String
  | 0, _, _ => []
  | fuel + 1, prevW, l =>
      match l with
      | 'r' :: 'a' :: 'i' :: 's' :: 'e' :: rest =>
          if prevW = false ∧ (rest.head?.map pySpace).getD false = true then
            let t := rest.dropWhile pySpace
            let w := t.takeWhile wordChar
            match longestSuffixCapture w ("Exception".data) with
            | some cap => String.mk cap :: raisedTypesAux fuel true (t.drop cap.length)
            | none =>
                match longestSuffixCapture w ("Error".data) with
                | some cap => String.mk cap :: raisedTypesAux fuel true (t.drop cap.length)
                | none => raisedTypesAux fuel true ('a' :: 'i' :: 's' :: 'e' :: rest)
          else raisedTypesAux fuel true ('a' :: 'i' :: 's' :: 'e' :: rest)
      | c :: rest => raisedTypesAux fuel (wordChar c) rest
      | [] => []

/-- The list version of the raise-type findall, with the same fuel bound
(one more than the text length, never exhausted: every step strictly
shortens the text). -/
def raisedTypes (prevW : Bool) (l : List Char) : List String :=
  raisedTypesAux (l.length + 1) prevW l

/-- Method _detect_api_changes. -/
def detect_api_changes (old_content new_content : String) : List String :=
  (if docstringCount old_content.data ≠ docstringCount new_content.data then
    ["Documentation/docstrings were modified"] else []) ++
  (if typeHintCount old_content.data ≠ typeHintCount new_content.data then
    ["Type hints were added, removed, or modified"] else [])

/-- Method _detect_config_changes. -/
def detect_config_changes (old_content new_content : String) : List String :=
  let old_constants := dedupFirst ((pyLines old_content).filterMap matchConstName)
  let new_constants := dedupFirst ((pyLines new_content).filterMap matchConstName)
  let removed_constants := setDiff old_constants new_constants
  let added_constants := setDiff new_constants old_constants
  (if removed_constants ≠ [] then
    ["Removed constant(s): " ++ String.intercalate ", " (removed_constants.take 3)]
   else []) ++
  (if added_constants ≠ [] then
    ["Added constant(s): " ++ String.intercalate ", " (added_constants.take 3)]
   else [])

/-- Method _detect_error_handling_changes. -/
def detect_error_handling_changes (old_content new_content : String) : List String :=
  let old_raises := raiseCount false old_content.data
  let new_raises := raiseCount false new_content.data
  (if old_raises ≠ new_raises then
    [if old_raises < new_raises then "Additional exceptions may be raised"
     else "Exception handling was modified"]
   else []) ++
  (let old_exceptions := dedupFirst (raisedTypes false old_content.data)
   let new_exceptions := dedupFirst (raisedTypes false new_content.data)
   if setEq old_exceptions new_exceptions = false then ["Exception types changed"] else [])

/-- Python list-or-default truthiness: l if l else d. -/
def pyDefault (l d : List String) : List String := if l ≠ [] then l else d

/-- Python list(set(l)) if l else d: the set pass deduplicates, modelled in
first-occurrence order. -/
def pyDefaultDedup (l d : List String) : List String := if l ≠ [] then dedupFirst l else d

/-- The local removed_exports of analyze_impact. -/
def removedExports (old_content new_content : String) : List String :=
  setDiff (extract_exports old_content) (extract_exports new_content)

/-- The local changed_exports of analyze_impact. -/
def changedExports (old_content new_content : String) : List String :=
  find_changed_exports old_content new_content
    (setInter (extract_exports old_content) (extract_exports new_content))

/-- The local potential_dependents of analyze_impact: only computed when
exports were removed and a non-None, non-empty project list was supplied
(Python truthiness of the optional argument). -/
def potentialDependents (old_content new_content file_path : String)
    (project_structure : Option (List String)) : List String :=
  if removedExports old_content new_content ≠ [] ∧ project_structure.getD [] ≠ [] then
    find_potential_dependents file_path (removedExports old_content new_content)
      (project_structure.getD [])
  else []

/-- The impacts list after rules one to seven of analyze_impact, before the
default entry. -/
def impactsCore (old_content new_content file_path : String)
    (project_structure : Option (List String)) (oldTree newTree : Option PyAst) :
    List String :=
  (if (BreakingChangeDetector.detect_breaking_changes old_content new_content file_path
      oldTree newTree).breaking_change then
    ["Breaking changes detected - may affect dependent code"] else []) ++
  (if removedExports old_content new_content ≠ [] then
    ["Removed " ++ toString (removedExports old_content new_content).length ++
      " exported item(s): " ++
      String.intercalate ", " ((removedExports old_content new_content).take 3)] else []) ++
  (if removedExports old_content new_content ≠ [] ∧ project_structure.getD [] ≠ [] ∧
      potentialDependents old_content new_content file_path project_structure ≠ [] then
    ["Potentially affects " ++
      toString (potentialDependents old_content new_content file_path project_structure).length ++
      " dependent file(s)"] else []) ++
  (if changedExports old_content new_content ≠ [] then
    ["Signature changes in " ++ toString (changedExports old_content new_content).length ++
      " exported function(s)"] else []) ++
  detect_api_changes old_content new_content ++
  detect_config_changes old_content new_content ++
  detect_error_handling_changes old_content new_content

/-- The impacts list with the default entry of rule eight appended. -/
def impactsFull (old_content new_content file_path : String)
    (project_structure : Option (List String)) (oldTree newTree : Option PyAst) :
    List String :=
  impactsCore old_content new_content file_path project_structure oldTree newTree ++
  (if impactsCore old_content new_content file_path project_structure oldTree newTree = [] ∧
      (ChangeDetector.detect_changes old_content new_content file_path).changed = true then
    ["Code modified - may require testing and review"] else [])

/-- The affected_users list of analyze_impact, in accumulation order. -/
def usersList (old_content new_content file_path : String)
    (project_structure : Option (List String)) (oldTree newTree : Option PyAst) :
    List String :=
  (if (BreakingChangeDetector.detect_breaking_changes old_content new_content file_path
      oldTree newTree).breaking_change then ["Developers using this module/API"] else []) ++
  (if removedExports old_content new_content ≠ [] then
    ["Code that imports these items"] else []) ++
  (if changedExports old_content new_content ≠ [] then
    ["Code calling these functions"] else []) ++
  (if detect_api_changes old_content new_content ≠ [] then ["API consumers"] else []) ++
  (if detect_config_changes old_content new_content ≠ [] then
    ["Users relying on default configuration"] else []) ++
  (if detect_error_handling_changes old_content new_content ≠ [] then
    ["Code handling exceptions from this module"] else []) ++
  (if impactsCore old_content new_content file_path project_structure oldTree newTree = [] ∧
      (ChangeDetector.detect_changes old_content new_content file_path).changed = true then
    ["Developers and QA team"] else [])

/-- The recommendations list of analyze_impact, in accumulation order. -/
def recsList (old_content new_content file_path : String)
    (project_structure : Option (List String)) (oldTree newTree : Option PyAst) :
    List String :=
  (if (BreakingChangeDetector.detect_breaking_changes old_content new_content file_path
      oldTree newTree).breaking_change then
    ["Update dependent code before deploying",
     "Consider version bump if this is a library"] else []) ++
  (if changedExports old_content new_content ≠ [] then
    ["Review call sites for compatibility"] else []) ++
  (if detect_error_handling_changes old_content new_content ≠ [] then
    ["Review error handling in dependent code"] else []) ++
  (if 100 < (ChangeDetector.detect_changes old_content new_content file_path).added_lines then
    ["Large change - consider code review and testing"] else []) ++
  (if (ChangeDetector.detect_changes old_content new_content file_path).added_lines * 2 <
      (ChangeDetector.detect_changes old_content new_content file_path).removed_lines then
    ["Significant code removal - verify functionality is preserved"] else [])

/-- Method analyze_impact, assembled from the named accumulators above; the
optional project_structure is truthy in Python only when it is a non-None,
non-empty list. -/
def analyze_impact (old_content new_content file_path : String)
    (project_structure : Option (List String)) (oldTree newTree : Option PyAst) :
    ImpactInfo :=
  { impact := pyDefault
      (impactsFull old_content new_content file_path project_structure oldTree newTree)
      ["No significant impact detected"],
    affected_modules :=
      pyDefaultDedup
        (potentialDependents old_content new_content file_path project_structure) [],
    outdated_docs := pyDefault
      (if detect_api_changes old_content new_content ≠ [] then
        ["API documentation for " ++ file_path] else []) [],
    affected_users := pyDefaultDedup
      (usersList old_content new_content file_path project_structure oldTree newTree)
      ["Developers"],
    recommendations := pyDefault
      (recsList old_content new_content file_path project_structure oldTree newTree)
      ["Review changes and test"],
    file := file_path,
    has_breaking_changes := (BreakingChangeDetector.detect_breaking_changes old_content
      new_content file_path oldTree newTree).breaking_change }

end ImpactAnalyzer

/-! ### Orchestrator (the package combinator analyze_code_changes) -/

/-- The combined record of analyze_code_changes. -/
structure CombinedResult where
  changed : Bool
  files_changed : List String
  reason : String
  breaking_change : Bool
  breaking_details : String
  severity : String
  impact : List String
  affected_modules : List String
  outdated_docs : List String
  affected_users : List String
  recommendations : List String
  change_summary : String
  added_lines : Nat
  removed_lines : Nat
  file : String
deriving DecidableEq

/-- The combinator analyze_code_changes of the package init file: one run
of each detector on the same inputs, merged field by field.  Both detectors
parse the same two texts, so each side receives one oracle value. -/
def analyze_code_changes (old_content new_content file_path : String)
    (project_structure : Option (List String)) (oldTree newTree : Option PyAst) :
    CombinedResult :=
  let change_info := ChangeDetector.detect_changes old_content new_content file_path
  let breaking_info := BreakingChangeDetector.detect_breaking_changes
    old_content new_content file_path oldTree newTree
  let impact_info := ImpactAnalyzer.analyze_impact old_content new_content file_path
    project_structure oldTree newTree
  { changed := change_info.changed,
    files_changed := change_info.files_changed,
    reason := change_info.reason,
    breaking_change := breaking_info.breaking_change,
    breaking_details := breaking_info.details,
    severity := breaking_info.severity,
    impact := impact_info.impact,
    affected_modules := impact_info.affected_modules,
    outdated_docs := impact_info.outdated_docs,
    affected_users := impact_info.affected_users,
    recommendations := impact_info.recommendations,
    change_summary := change_info.change_summary,
    added_lines := change_info.added_lines,
    removed_lines := change_info.removed_lines,
    file := file_path }

/-- The declared range of the severity field. -/
def validSeverity (s : String) : Prop :=
  s = "none" ∨ s = "low" ∨ s = "medium" ∨ s = "high"

/-! ## Supporting lemmas -/

theorem mem_dedupFirstAux {x : String} :
    ∀ {l seen : List String}, x ∈ dedupFirstAux l seen → x ∈ l ∧ x ∉ seen := by
  intro l
  induction l with
  | nil => intro seen h; simp [dedupFirstAux] at h
  | cons c cs ih =>
      intro seen h
      rw [dedupFirstAux] at h
      by_cases hc : c ∈ seen
      · rw [if_pos hc] at h
        rcases ih h with ⟨h1, h2⟩
        exact ⟨List.mem_cons_of_mem _ h1, h2⟩
      · rw [if_neg hc] at h
        rcases List.mem_cons.mp h with rfl | h
        · exact ⟨List.mem_cons_self _ _, hc⟩
        · rcases ih h with ⟨h1, h2⟩
          refine ⟨List.mem_cons_of_mem _ h1, fun hs => h2 (List.mem_cons_of_mem _ hs)⟩

theorem mem_dedupFirst {x : String} {l : List String} (h : x ∈ dedupFirst l) : x ∈ l :=
  (mem_dedupFirstAux h).1

theorem dedupFirstAux_nodup : ∀ (l seen : List String), (dedupFirstAux l seen).Nodup := by
  intro l
  induction l with
  | nil => intro seen; simp [dedupFirstAux]
  | cons c cs ih =>
      intro seen
      rw [dedupFirstAux]
      by_cases hc : c ∈ seen
      · rw [if_pos hc]; exact ih seen
      · rw [if_neg hc]
        refine List.nodup_cons.mpr ⟨fun hmem => ?_, ih (c :: seen)⟩
        exact (mem_dedupFirstAux hmem).2 (List.mem_cons_self _ _)

theorem dedupFirst_nodup (l : List String) : (dedupFirst l).Nodup :=
  dedupFirstAux_nodup l []

theorem mem_dedupFirst_iff {x : String} {l : List String} : x ∈ dedupFirst l ↔ x ∈ l := by
  constructor
  · exact mem_dedupFirst
  · intro h
    unfold dedupFirst
    generalize hseen : ([] : List String) = seen
    have hx : x ∉ seen := by rw [← hseen]; simp
    clear hseen
    induction l generalizing seen with
    | nil => simp at h
    | cons c cs ih =>
        rw [dedupFirstAux]
        by_cases hc : c ∈ seen
        · rcases List.mem_cons.mp h with rfl | h2
          · exact absurd hc hx
          · rw [if_pos hc]; exact ih h2 seen hx
        · rw [if_neg hc]
          rcases List.mem_cons.mp h with rfl | h2
          · exact List.mem_cons_self _ _
          · by_cases hxc : x = c
            · subst hxc; exact List.mem_cons_self _ _
            · refine List.mem_cons_of_mem _ (ih h2 (c :: seen) ?_)
              intro hmem
              rcases List.mem_cons.mp hmem with h3 | h3
              · exact hxc h3
              · exact hx h3

theorem setDiff_self (l : List String) : setDiff l l = [] := by
  unfold setDiff
  rw [List.filter_eq_nil_iff]
  intro a ha
  simp only [decide_eq_true_eq, Decidable.not_not]
  exact mem_dedupFirst ha

theorem setDiff_all_mem {a b : List String} (h : ∀ x ∈ a, x ∈ b) : setDiff a b = [] := by
  unfold setDiff
  rw [List.filter_eq_nil_iff]
  intro x hx
  simp only [decide_eq_true_eq, Decidable.not_not]
  exact h x (mem_dedupFirst hx)

theorem setEq_self (l : List String) : setEq l l = true := by
  unfold setEq
  rw [Bool.and_eq_true]
  constructor <;> · rw [List.all_eq_true]; intro x hx; simpa using hx

/-! ## Severity lemmas for the breaking-change report -/

theorem sevRank_le_three (s : String) : sevRank s ≤ 3 := by
  unfold sevRank
  split <;> omega

theorem le_maxSeverityRank {l : List ChangeEvent} {e : ChangeEvent} (he : e ∈ l) :
    sevRank e.severity ≤ maxSeverityRank l := by
  induction l with
  | nil => simp at he
  | cons x xs ih =>
      simp only [maxSeverityRank, List.map_cons, List.foldr_cons]
      rcases List.mem_cons.mp he with rfl | he2
      · exact le_max_left _ _
      · exact le_trans (ih he2) (le_max_right _ _)

theorem maxSeverityRank_le {l : List ChangeEvent} {c : Nat}
    (h : ∀ e ∈ l, sevRank e.severity ≤ c) : maxSeverityRank l ≤ c := by
  induction l with
  | nil => simp [maxSeverityRank]
  | cons x xs ih =>
      simp only [maxSeverityRank, List.map_cons, List.foldr_cons]
      refine max_le (h x (List.mem_cons_self _ _)) ?_
      exact ih (fun e he => h e (List.mem_cons_of_mem _ he))

namespace BreakingChangeDetector

theorem breakingEvents_severity (o n p : String) (a b : Option PyAst) :
    ∀ e ∈ breakingEvents o n p a b, e.severity = "high" ∨ e.severity = "medium" := by
  intro e he
  simp only [breakingEvents, detect_removed_public_attributes, List.mem_append] at he
  rcases he with ((h | h) | h) | h
  · rcases List.mem_map.mp h with ⟨nm, _, rfl⟩
    left; rfl
  · rcases List.mem_filterMap.mp h with ⟨nm, _, hfm⟩
    split at hfm
    · split at hfm
      · rw [Option.some_inj] at hfm
        subst hfm
        left; rfl
      · simp at hfm
    · simp at hfm
  · rcases List.mem_map.mp h with ⟨nm, _, rfl⟩
    left; rfl
  · rcases List.mem_map.mp h with ⟨nm, _, rfl⟩
    right; rfl

theorem dbc_changes (o n p : String) (a b : Option PyAst) :
    (detect_breaking_changes o n p a b).changes = breakingEvents o n p a b := rfl

theorem dbc_severity (o n p : String) (a b : Option PyAst) :
    (detect_breaking_changes o n p a b).severity =
      (if (breakingEvents o n p a b).any (fun c => c.severity == "high") then "high"
       else if (breakingEvents o n p a b).any (fun c => c.severity == "medium") then "medium"
       else if breakingEvents o n p a b ≠ [] then "low"
       else "none") := rfl

theorem dbc_breaking (o n p : String) (a b : Option PyAst) :
    (detect_breaking_changes o n p a b).breaking_change =
      decide (breakingEvents o n p a b ≠ []) := rfl

theorem dbc_details (o n p : String) (a b : Option PyAst) :
    (detect_breaking_changes o n p a b).details =
      (if breakingEvents o n p a b ≠ [] then
        String.intercalate "; " ((breakingEvents o n p a b).map (fun c => c.description))
       else "No breaking changes detected") := rfl

end BreakingChangeDetector

/-- The severity of the report is computed by a chained conditional; over
events whose severities are high or medium it agrees with the ordinal
maximum, and it is none exactly on the empty event list. -/
theorem severity_chain_spec (l : List ChangeEvent)
    (hall : ∀ e ∈ l, e.severity = "high" ∨ e.severity = "medium") :
    sevRank (if l.any (fun c => c.severity == "high") then "high"
      else if l.any (fun c => c.severity == "medium") then "medium"
      else if l ≠ [] then "low" else "none") = maxSeverityRank l ∧
    ((if l.any (fun c => c.severity == "high") then "high"
      else if l.any (fun c => c.severity == "medium") then "medium"
      else if l ≠ [] then "low" else "none") = "none" ↔ l = []) ∧
    (if l.any (fun c => c.severity == "high") then "high"
      else if l.any (fun c => c.severity == "medium") then "medium"
      else if l ≠ [] then "low" else "none") ≠ "low" := by
  by_cases hh : l.any (fun c => c.severity == "high") = true
  · rw [if_pos hh]
    rcases List.any_eq_true.mp hh with ⟨e, he, hesev⟩
    have h3 : sevRank e.severity = 3 := by
      rw [eq_of_beq hesev]
      decide
    refine ⟨?_, ?_, by decide⟩
    · have hge := le_maxSeverityRank he
      have hle : maxSeverityRank l ≤ 3 :=
        maxSeverityRank_le (fun e2 _ => sevRank_le_three _)
      have : sevRank "high" = 3 := by decide
      omega
    · constructor
      · intro h; exact absurd h (by decide)
      · intro h; subst h; simp at hh
  · rw [if_neg hh]
    by_cases hm : l.any (fun c => c.severity == "medium") = true
    · rw [if_pos hm]
      rcases List.any_eq_true.mp hm with ⟨e, he, hesev⟩
      have hallmed : ∀ e2 ∈ l, sevRank e2.severity = 2 := by
        intro e2 he2
        rcases hall e2 he2 with h | h
        · exfalso
          apply hh
          exact List.any_eq_true.mpr ⟨e2, he2, by rw [h]; rfl⟩
        · rw [h]
          decide
      refine ⟨?_, ?_, by decide⟩
      · have hge := le_maxSeverityRank he
        rw [hallmed e he] at hge
        have hle : maxSeverityRank l ≤ 2 :=
          maxSeverityRank_le (fun e2 he2 => le_of_eq (hallmed e2 he2))
        have : sevRank "medium" = 2 := by decide
        omega
      · constructor
        · intro h; exact absurd h (by decide)
        · intro h; subst h; simp at hm
    · rw [if_neg hm]
      have hnil : l = [] := by
        by_contra hne
        rcases List.exists_mem_of_ne_nil l hne with ⟨e, he⟩
        rcases hall e he with h | h
        · exact hh (List.any_eq_true.mpr ⟨e, he, by rw [h]; rfl⟩)
        · exact hm (List.any_eq_true.mpr ⟨e, he, by rw [h]; rfl⟩)
      subst hnil
      simp only [ne_eq, not_true_eq_false, if_neg, if_false]
      exact ⟨rfl, by simp, by decide⟩

namespace BreakingChangeDetector

/-- C3 counterexample: on two empty revisions the report has no events but
its details field is the fixed sentence, not the empty string that the
semicolon-join of no descriptions would give; the details clause of the
claim therefore fails at this input. -/
theorem c3_counterexample :
    (detect_breaking_changes "" "" "f" (some ⟨[], []⟩) (some ⟨[], []⟩)).changes = [] ∧
    (detect_breaking_changes "" "" "f" (some ⟨[], []⟩) (some ⟨[], []⟩)).details =
      "No breaking changes detected" ∧
    (detect_breaking_changes "" "" "f" (some ⟨[], []⟩) (some ⟨[], []⟩)).details ≠
      String.intercalate "; "
        (((detect_breaking_changes "" "" "f" (some ⟨[], []⟩) (some ⟨[], []⟩)).changes).map
          (fun c => c.description)) := by
  refine ⟨by decide, by decide, by decide⟩

/-- C3 (amended): the report severity is the ordinal maximum of the event
severities and is none exactly when there are no events; breaking_change
holds exactly when there are events; and details is the semicolon-join of
the descriptions when events exist, else the fixed no-changes sentence. -/
theorem c3_report_invariants (o n p : String) (a b : Option PyAst) :
    sevRank (detect_breaking_changes o n p a b).severity =
      maxSeverityRank (detect_breaking_changes o n p a b).changes ∧
    ((detect_breaking_changes o n p a b).severity = "none" ↔
      (detect_breaking_changes o n p a b).changes = []) ∧
    ((detect_breaking_changes o n p a b).breaking_change = true ↔
      (detect_breaking_changes o n p a b).changes ≠ []) ∧
    ((detect_breaking_changes o n p a b).changes ≠ [] →
      (detect_breaking_changes o n p a b).details =
        String.intercalate "; "
          (((detect_breaking_changes o n p a b).changes).map (fun c => c.description))) ∧
    ((detect_breaking_changes o n p a b).changes = [] →
      (detect_breaking_changes o n p a b).details = "No breaking changes detected") := by
  have hspec := severity_chain_spec (breakingEvents o n p a b)
    (breakingEvents_severity o n p a b)
  refine ⟨?_, ?_, ?_, ?_, ?_⟩
  · rw [dbc_severity, dbc_changes]
    exact hspec.1
  · rw [dbc_severity, dbc_changes]
    exact hspec.2.1
  · rw [dbc_breaking, dbc_changes]
    simp
  · intro h
    rw [dbc_changes] at h
    rw [dbc_details, dbc_changes, if_pos h]
  · intro h
    rw [dbc_changes] at h
    rw [dbc_details, if_neg (by simpa using h)]

/-- C3 witness at a concrete input with one event. -/
theorem c3_witness :
    (detect_breaking_changes "def gone(a): pass" "" "f"
        (some ⟨[⟨"gone", ["a"], 0, false, false, 1⟩], []⟩) (some ⟨[], []⟩)).changes ≠ [] ∧
    (detect_breaking_changes "def gone(a): pass" "" "f"
        (some ⟨[⟨"gone", ["a"], 0, false, false, 1⟩], []⟩) (some ⟨[], []⟩)).details =
      String.intercalate "; "
        (((detect_breaking_changes "def gone(a): pass" "" "f"
          (some ⟨[⟨"gone", ["a"], 0, false, false, 1⟩], []⟩) (some ⟨[], []⟩)).changes).map
          (fun c => c.description)) := by
  have h := (c3_report_invariants "def gone(a): pass" "" "f"
    (some ⟨[⟨"gone", ["a"], 0, false, false, 1⟩], []⟩) (some ⟨[], []⟩)).2.2.2.1
  have hne : (detect_breaking_changes "def gone(a): pass" "" "f"
      (some ⟨[⟨"gone", ["a"], 0, false, false, 1⟩], []⟩) (some ⟨[], []⟩)).changes ≠ [] := by
    decide
  exact ⟨hne, h hne⟩

/-- The report severity is one of the words none, medium, high. -/
theorem severity_cases (o n p : String) (a b : Option PyAst) :
    (detect_breaking_changes o n p a b).severity = "none" ∨
    (detect_breaking_changes o n p a b).severity = "medium" ∨
    (detect_breaking_changes o n p a b).severity = "high" := by
  rw [dbc_severity]
  by_cases hh : (breakingEvents o n p a b).any (fun c => c.severity == "high") = true
  · rw [if_pos hh]; right; right; rfl
  · rw [if_neg hh]
    by_cases hm : (breakingEvents o n p a b).any (fun c => c.severity == "medium") = true
    · rw [if_pos hm]; right; left; rfl
    · rw [if_neg hm]
      by_cases hne : breakingEvents o n p a b ≠ []
      · exfalso
        rcases List.exists_mem_of_ne_nil _ hne with ⟨e, he⟩
        rcases breakingEvents_severity o n p a b e he with h | h
        · exact hh (List.any_eq_true.mpr ⟨e, he, by rw [h]; rfl⟩)
        · exact hm (List.any_eq_true.mpr ⟨e, he, by rw [h]; rfl⟩)
      · rw [if_neg hne]; left; rfl

/-- The breaking flag is set exactly when events exist. -/
theorem breaking_iff_events (o n p : String) (a b : Option PyAst) :
    (detect_breaking_changes o n p a b).breaking_change = true ↔
      (detect_breaking_changes o n p a b).changes ≠ [] := by
  rw [dbc_breaking, dbc_changes]
  simp

/-- C9: the overall severity is never the word low (it is one of none,
medium, high), because every event the detector can emit carries severity
high or medium even though low is part of the declared output range. -/
theorem c9_severity_never_low (o n p : String) (a b : Option PyAst) :
    (detect_breaking_changes o n p a b).severity ≠ "low" ∧
    ((detect_breaking_changes o n p a b).severity = "none" ∨
      (detect_breaking_changes o n p a b).severity = "medium" ∨
      (detect_breaking_changes o n p a b).severity = "high") ∧
    (∀ e ∈ (detect_breaking_changes o n p a b).changes,
      e.severity = "high" ∨ e.severity = "medium") := by
  have hspec := severity_chain_spec (breakingEvents o n p a b)
    (breakingEvents_severity o n p a b)
  refine ⟨?_, severity_cases o n p a b, ?_⟩
  · rw [dbc_severity]
    exact hspec.2.2
  · rw [dbc_changes]
    exact breakingEvents_severity o n p a b

/-- C5: on the pair where f gains one required parameter, the report holds
exactly one event, of kind signature_changed, whose description is the
sentence mentioning (added 1 required parameter(s)), with overall severity
high and breaking_change true.  The parse oracles hold what ast.parse
yields on these revisions: one FunctionDef f at line 1 with the listed
positional parameters, no defaults, no variadic collectors, no classes. -/
theorem c5_added_required_parameter :
    (detect_breaking_changes "def f(a): pass" "def f(a, b): pass" "t.py"
      (some ⟨[⟨"f", ["a"], 0, false, false, 1⟩], []⟩)
      (some ⟨[⟨"f", ["a", "b"], 0, false, false, 1⟩], []⟩)).changes =
      [⟨"signature_changed",
        "Function \x27f\x27 signature changed: added 1 required parameter(s)",
        "t.py:1", "high"⟩] ∧
    (detect_breaking_changes "def f(a): pass" "def f(a, b): pass" "t.py"
      (some ⟨[⟨"f", ["a"], 0, false, false, 1⟩], []⟩)
      (some ⟨[⟨"f", ["a", "b"], 0, false, false, 1⟩], []⟩)).severity = "high" ∧
    (detect_breaking_changes "def f(a): pass" "def f(a, b): pass" "t.py"
      (some ⟨[⟨"f", ["a"], 0, false, false, 1⟩], []⟩)
      (some ⟨[⟨"f", ["a", "b"], 0, false, false, 1⟩], []⟩)).breaking_change = true ∧
    strContains
      "Function \x27f\x27 signature changed: added 1 required parameter(s)"
      "added 1 required parameter(s)" = true := by
  refine ⟨by decide, by decide, by decide, by decide⟩

/-- C6 counterexample: renaming the first of two parameters in place meets
every side condition of the claim (same position, same parameter count,
same defaults count, same variadic flags), yet the order-comparison rule
emits a signature_changed event for the function. -/
theorem c6_counterexample :
    (detect_breaking_changes "def f(a, b): pass" "def f(x, b): pass" "t.py"
      (some ⟨[⟨"f", ["a", "b"], 0, false, false, 1⟩], []⟩)
      (some ⟨[⟨"f", ["x", "b"], 0, false, false, 1⟩], []⟩)).changes =
      [⟨"signature_changed",
        "Function \x27f\x27 signature changed: parameter order changed",
        "t.py:1", "high"⟩] := by decide

/-- C6 (amended): renaming the LAST parameter in place (fresh name on both
sides, same parameter count, same defaults count, same variadic flags)
produces no signature difference, so the classifier emits no
signature_changed event for that function; renaming any earlier parameter
trips the order-comparison rule instead (see the counterexample). -/
theorem c6_rename_last_no_event (nm x y : String) (l : List String)
    (dc : Nat) (vg kw : Bool) (ln1 ln2 : Nat)
    (hx : x ∉ l) (hy : y ∉ l) (hxy : x ≠ y) :
    compare_signatures ⟨nm, l ++ [x], dc, vg, kw, ln1⟩ ⟨nm, l ++ [y], dc, vg, kw, ln2⟩ =
      none := by
  have hk : (setInter (l ++ [x]) (l ++ [y])).length ≤ l.length := by
    have hnd : (setInter (l ++ [x]) (l ++ [y])).Nodup :=
      List.Nodup.filter _ (dedupFirst_nodup _)
    have hsub : ∀ e ∈ setInter (l ++ [x]) (l ++ [y]), e ∈ l := by
      intro e he
      rcases List.mem_filter.mp he with ⟨hed, hp⟩
      have heL : e ∈ l ++ [x] := mem_dedupFirst hed
      have heM : e ∈ l ++ [y] := of_decide_eq_true hp
      rcases List.mem_append.mp heL with h | h
      · exact h
      · exfalso
        rcases List.mem_singleton.mp h with rfl
        rcases List.mem_append.mp heM with h2 | h2
        · exact hx h2
        · exact hxy (List.mem_singleton.mp h2)
    calc (setInter (l ++ [x]) (l ++ [y])).length
        = (setInter (l ++ [x]) (l ++ [y])).toFinset.card :=
          (List.toFinset_card_of_nodup hnd).symm
      _ ≤ l.toFinset.card := Finset.card_le_card (by
          intro e he
          rw [List.mem_toFinset] at he ⊢
          exact hsub e he)
      _ ≤ l.length := List.toFinset_card_le l
  have htake : (l ++ [x]).take (setInter (l ++ [x]) (l ++ [y])).length =
      (l ++ [y]).take (setInter (l ++ [x]) (l ++ [y])).length := by
    rw [List.take_append_of_le_length hk, List.take_append_of_le_length hk]
  cases vg <;> cases kw <;>
    simp [compare_signatures, htake, List.length_append]

/-- C6 witness: renaming the last of two parameters yields no event. -/
theorem c6_witness :
    compare_signatures ⟨"f", ["a", "b"], 0, false, false, 1⟩
      ⟨"f", ["a", "c"], 0, false, false, 2⟩ = none :=
  c6_rename_last_no_event "f" "b" "c" ["a"] 0 false false 1 2
    (by decide) (by decide) (by decide)

/-- C9 witness at a concrete input. -/
theorem c9_witness :
    (detect_breaking_changes "def gone(a): pass" "" "f"
      (some ⟨[⟨"gone", ["a"], 0, false, false, 1⟩], []⟩) (some ⟨[], []⟩)).severity ≠ "low" :=
  (c9_severity_never_low "def gone(a): pass" "" "f"
    (some ⟨[⟨"gone", ["a"], 0, false, false, 1⟩], []⟩) (some ⟨[], []⟩)).1

end BreakingChangeDetector

/-! ## String-head helpers for distinguishing report sentences -/

theorem string_data_append (s t : String) : (s ++ t).data = s.data ++ t.data := by
  cases s; cases t; rfl

theorem head_append_of_head {s : String} {c : Char} (t : String)
    (h : s.data.head? = some c) : (s ++ t).data.head? = some c := by
  rw [string_data_append]
  cases hs : s.data with
  | nil => rw [hs] at h; simp at h
  | cons c2 rest =>
      rw [hs] at h
      simp only [List.head?_cons, Option.some_inj] at h
      simp [h]

theorem string_head_ne {s t : String} (h : s.data.head? ≠ t.data.head?) : s ≠ t :=
  fun he => h (by rw [he])

theorem mem_of_mem_iteList {a : String} {c : Prop} [Decidable c] {l : List String}
    (h : a ∈ (if c then l else [])) : a ∈ l := by
  split at h
  · exact h
  · simp at h

namespace ImpactAnalyzer

theorem pyDefault_ne_nil {l d : List String} (hd : d ≠ []) : pyDefault l d ≠ [] := by
  unfold pyDefault
  split
  · assumption
  · exact hd

theorem dedupFirst_ne_nil {l : List String} (h : l ≠ []) : dedupFirst l ≠ [] := by
  cases l with
  | nil => exact absurd rfl h
  | cons x xs =>
      unfold dedupFirst dedupFirstAux
      rw [if_neg (by simp)]
      simp

theorem pyDefaultDedup_ne_nil {l d : List String} (hd : d ≠ []) : pyDefaultDedup l d ≠ [] := by
  unfold pyDefaultDedup
  split
  · exact dedupFirst_ne_nil (by assumption)
  · exact hd

theorem mem_pyDefault {s : String} {l d : List String} (h : s ∈ pyDefault l d) :
    s ∈ l ∨ s ∈ d := by
  unfold pyDefault at h
  split at h
  · exact Or.inl h
  · exact Or.inr h

theorem pyDefault_mem_of_mem {s : String} {l d : List String} (h : s ∈ l) :
    s ∈ pyDefault l d := by
  unfold pyDefault
  rw [if_pos (List.ne_nil_of_mem h)]
  exact h

theorem find_potential_dependents_eq_nil (sf : String) (re pf : List String) :
    find_potential_dependents sf re pf = [] := rfl

theorem potentialDependents_eq_nil (o n p : String) (ps : Option (List String)) :
    potentialDependents o n p ps = [] := by
  unfold potentialDependents
  split <;> rfl

theorem ai_impact (o n p : String) (ps : Option (List String)) (a b : Option PyAst) :
    (analyze_impact o n p ps a b).impact =
      pyDefault (impactsFull o n p ps a b) ["No significant impact detected"]  := by
  simp only [analyze_impact]

theorem ai_modules (o n p : String) (ps : Option (List String)) (a b : Option PyAst) :
    (analyze_impact o n p ps a b).affected_modules =
      pyDefaultDedup (potentialDependents o n p ps) []  := by
  simp only [analyze_impact]

theorem ai_users (o n p : String) (ps : Option (List String)) (a b : Option PyAst) :
    (analyze_impact o n p ps a b).affected_users =
      pyDefaultDedup (usersList o n p ps a b) ["Developers"]  := by
  simp only [analyze_impact]

theorem ai_recs (o n p : String) (ps : Option (List String)) (a b : Option PyAst) :
    (analyze_impact o n p ps a b).recommendations =
      pyDefault (recsList o n p ps a b) ["Review changes and test"]  := by
  simp only [analyze_impact]

theorem mem_detect_api_changes {o n : String} {s : String}
    (h : s ∈ detect_api_changes o n) :
    s = "Documentation/docstrings were modified" ∨
    s = "Type hints were added, removed, or modified" := by
  unfold detect_api_changes at h
  rcases List.mem_append.mp h with h2 | h2 <;>
    rcases List.mem_singleton.mp (mem_of_mem_iteList h2) with rfl
  · left; rfl
  · right; rfl

theorem mem_detect_config_changes {o n : String} {s : String}
    (h : s ∈ detect_config_changes o n) : s.data.head? = some 'R' ∨ s.data.head? = some 'A' := by
  unfold detect_config_changes at h
  rcases List.mem_append.mp h with h2 | h2 <;>
    rcases List.mem_singleton.mp (mem_of_mem_iteList h2) with rfl
  · left; exact head_append_of_head _ rfl
  · right; exact head_append_of_head _ rfl

theorem mem_detect_error_handling_changes {o n : String} {s : String}
    (h : s ∈ detect_error_handling_changes o n) :
    s = "Additional exceptions may be raised" ∨
    s = "Exception handling was modified" ∨
    s = "Exception types changed" := by
  unfold detect_error_handling_changes at h
  rcases List.mem_append.mp h with h2 | h2
  · rcases List.mem_singleton.mp (mem_of_mem_iteList h2) with rfl
    split
    · left; rfl
    · right; left; rfl
  · rcases List.mem_singleton.mp (mem_of_mem_iteList h2) with rfl
    right; right; rfl

/-- Every sentence that can reach the impacts accumulator starts with a
letter other than P (the dependent-file sentence is guarded by the inert
placeholder and never appears). -/
theorem impactsCore_head_ne_P {o n p : String} {ps : Option (List String)}
    {a b : Option PyAst} {s : String} (h : s ∈ impactsCore o n p ps a b) :
    s.data.head? ≠ some 'P' := by
  unfold impactsCore at h
  rw [potentialDependents_eq_nil] at h
  simp only [List.mem_append, or_assoc, ne_eq, not_true_eq_false, and_false,
    if_false] at h
  rcases h with h | h | h | h | h | h | h
  · rcases List.mem_singleton.mp (mem_of_mem_iteList h) with rfl
    decide
  · rcases List.mem_singleton.mp (mem_of_mem_iteList h) with rfl
    rw [head_append_of_head _ (head_append_of_head _ (head_append_of_head _
      (show ("Removed " : String).data.head? = some 'R' from rfl)))]
    decide
  · simp at h
  · rcases List.mem_singleton.mp (mem_of_mem_iteList h) with rfl
    rw [head_append_of_head _ (head_append_of_head _
      (show ("Signature changes in " : String).data.head? = some 'S' from rfl))]
    decide
  · rcases mem_detect_api_changes h with rfl | rfl <;> decide
  · rcases mem_detect_config_changes h with h2 | h2 <;> (rw [h2]; decide)
  · rcases mem_detect_error_handling_changes h with rfl | rfl | rfl <;> decide

/-- Every sentence of the final impact list starts with a letter other
than P. -/
theorem impact_head_ne_P (o n p : String) (ps : Option (List String)) (a b : Option PyAst) :
    ∀ s ∈ (analyze_impact o n p ps a b).impact, s.data.head? ≠ some 'P' := by
  intro s hs
  rw [ai_impact] at hs
  rcases mem_pyDefault hs with hs | hs
  · unfold impactsFull at hs
    rcases List.mem_append.mp hs with hs | hs
    · exact impactsCore_head_ne_P hs
    · rcases List.mem_singleton.mp (mem_of_mem_iteList hs) with rfl
      decide
  · rcases List.mem_singleton.mp hs with rfl
    decide

/-- C7: dependent-file discovery is an inert placeholder: for every input,
with or without a project-file list, affected_modules is empty and no
sentence of the form (Potentially affects k dependent file(s)) appears in
the impact list. -/
theorem c7_no_dependents (o n p : String) (ps : Option (List String)) (a b : Option PyAst) :
    (analyze_impact o n p ps a b).affected_modules = [] ∧
    ∀ k : Nat, ("Potentially affects " ++ toString k ++ " dependent file(s)") ∉
      (analyze_impact o n p ps a b).impact := by
  constructor
  · rw [ai_modules, potentialDependents_eq_nil]
    rfl
  · intro k hmem
    refine impact_head_ne_P o n p ps a b _ hmem ?_
    exact head_append_of_head _ (head_append_of_head _
      (show ("Potentially affects " : String).data.head? = some 'P' from rfl))

/-- C7 witness at a concrete input that supplies a non-empty project-file
list and removes an export. -/
theorem c7_witness :
    (analyze_impact "def gone_fn(a): pass" "" "p" (some ["other.py"])
      (some ⟨[⟨"gone_fn", ["a"], 0, false, false, 1⟩], []⟩) (some ⟨[], []⟩)).affected_modules
      = [] ∧
    ("Potentially affects " ++ toString 1 ++ " dependent file(s)") ∉
      (analyze_impact "def gone_fn(a): pass" "" "p" (some ["other.py"])
        (some ⟨[⟨"gone_fn", ["a"], 0, false, false, 1⟩], []⟩) (some ⟨[], []⟩)).impact :=
  ⟨(c7_no_dependents "def gone_fn(a): pass" "" "p" (some ["other.py"])
      (some ⟨[⟨"gone_fn", ["a"], 0, false, false, 1⟩], []⟩) (some ⟨[], []⟩)).1,
   (c7_no_dependents "def gone_fn(a): pass" "" "p" (some ["other.py"])
      (some ⟨[⟨"gone_fn", ["a"], 0, false, false, 1⟩], []⟩) (some ⟨[], []⟩)).2 1⟩

/-- C8: whenever the computed diff reports more than one hundred added
lines, the large-change recommendation is present, independently of every
other property of the inputs. -/
theorem c8_large_change_rule (o n p : String) (ps : Option (List String))
    (a b : Option PyAst)
    (h : 100 < (ChangeDetector.detect_changes o n p).added_lines) :
    "Large change - consider code review and testing" ∈
      (analyze_impact o n p ps a b).recommendations := by
  rw [ai_recs]
  refine pyDefault_mem_of_mem ?_
  unfold recsList
  rw [if_pos h]
  simp [List.mem_append]

/-- C8 witness: a one-hundred-and-one line insertion into an empty file. -/
theorem c8_witness :
    "Large change - consider code review and testing" ∈
      (analyze_impact "" (String.join (List.replicate 101 "a\n")) "p" none
        (some ⟨[], []⟩) (some ⟨[], []⟩)).recommendations :=
  c8_large_change_rule "" (String.join (List.replicate 101 "a\n")) "p" none
    (some ⟨[], []⟩) (some ⟨[], []⟩) (by decide)

/-- C10: the impact, affected_users and recommendations lists are never
empty, and on an unchanged empty input the three documented defaults are
returned verbatim. -/
theorem c10_lists_never_empty :
    (∀ (o n p : String) (ps : Option (List String)) (a b : Option PyAst),
      (analyze_impact o n p ps a b).impact ≠ [] ∧
      (analyze_impact o n p ps a b).affected_users ≠ [] ∧
      (analyze_impact o n p ps a b).recommendations ≠ []) ∧
    (analyze_impact "" "" "p" none (some ⟨[], []⟩) (some ⟨[], []⟩)).impact =
      ["No significant impact detected"] ∧
    (analyze_impact "" "" "p" none (some ⟨[], []⟩) (some ⟨[], []⟩)).affected_users =
      ["Developers"] ∧
    (analyze_impact "" "" "p" none (some ⟨[], []⟩) (some ⟨[], []⟩)).recommendations =
      ["Review changes and test"] := by
  refine ⟨?_, by decide, by decide, by decide⟩
  intro o n p ps a b
  refine ⟨?_, ?_, ?_⟩
  · rw [ai_impact]
    exact pyDefault_ne_nil (by simp)
  · rw [ai_users]
    exact pyDefaultDedup_ne_nil (by simp)
  · rw [ai_recs]
    exact pyDefault_ne_nil (by simp)

/-- C10 witness at a concrete input. -/
theorem c10_witness :
    (analyze_impact "x = 1" "y = 2" "p" none (some ⟨[], []⟩) (some ⟨[], []⟩)).impact ≠ [] :=
  (c10_lists_never_empty.1 "x = 1" "y = 2" "p" none (some ⟨[], []⟩) (some ⟨[], []⟩)).1

end ImpactAnalyzer

/-! ## The diff of a sequence against itself

SequenceMatcher on two equal sequences reports one full-length matching
block, so unified_diff of equal line lists is empty.  The argument: in the
main loop of find_longest_match on a self-comparison, every diagonal run
through a cell dominates the run through that cell, so the best block
always lies on the diagonal; the two extension loops then sweep a diagonal
best block out to the full range. -/

theorem b2j_mem_get {b : List String} {x : String} {j : Nat} (h : j ∈ b2j b x) :
    b.get? j = some x := by
  simp only [b2j] at h
  split at h
  · exact absurd h (List.not_mem_nil j)
  · exact of_decide_eq_true (List.mem_filter.mp h).2

theorem b2j_lt {b : List String} {x : String} {j : Nat} (h : j ∈ b2j b x) :
    j < b.length := by
  obtain ⟨hlt, -⟩ := List.get?_eq_some.mp (b2j_mem_get h)
  exact hlt

theorem b2j_fiber {b : List String} {x : String} {j : Nat} (h : j ∈ b2j b x)
    {j2 : Nat} (h2 : b.get? j2 = some x) : j2 ∈ b2j b x := by
  simp only [b2j] at h ⊢
  split at h
  · exact absurd h (List.not_mem_nil j)
  · next hp =>
      rw [if_neg hp]
      refine List.mem_filter.mpr ⟨List.mem_range.mpr ?_, decide_eq_true h2⟩
      obtain ⟨hlt, -⟩ := List.get?_eq_some.mp h2
      exact hlt

theorem b2j_sorted (b : List String) (x : String) : (b2j b x).Pairwise (· < ·) := by
  simp only [b2j]
  split
  · exact List.Pairwise.nil
  · exact List.Pairwise.filter _ (List.pairwise_lt_range _)

theorem rowJs_id {blo bhi : Nat} : ∀ L : List Nat, (∀ j ∈ L, ¬ j < blo) →
    (∀ j ∈ L, ¬ bhi ≤ j) → rowJs blo bhi L = L
  | [], _, _ => rfl
  | j :: rest, h1, h2 => by
      simp only [rowJs]
      rw [if_neg (h1 j (List.mem_cons_self j rest)),
        if_neg (h2 j (List.mem_cons_self j rest)),
        rowJs_id rest (fun x hx => h1 x (List.mem_cons_of_mem j hx))
          (fun x hx => h2 x (List.mem_cons_of_mem j hx))]

theorem rowJs_b2j (l : List String) (x : String) :
    rowJs 0 l.length (b2j l x) = b2j l x :=
  rowJs_id _ (fun j _ => by omega) (fun j hj => by have := b2j_lt hj; omega)

theorem runl_eq (l : List String) (i j : Nat) :
    runl l i j =
      if j ∈ b2j l (l.getD i "") then
        (if 0 < i ∧ 0 < j then runl l (i - 1) (j - 1) else 0) + 1
      else 0 := by
  rw [runl]
  simp only [dite_eq_ite]

theorem runl_zero {l : List String} {i j : Nat} (h : j ∉ b2j l (l.getD i "")) :
    runl l i j = 0 := by
  rw [runl_eq, if_neg h]

theorem getD_of_get? {l : List String} {j : Nat} {x : String} (h : l.get? j = some x) :
    l.getD j "" = x := by
  have hd : l.getD j "" = (l.get? j).getD "" := rfl
  rw [hd, h]
  rfl

theorem get?_getD_self {l : List String} {i : Nat} (h : i < l.length) :
    l.get? i = some (l.getD i "") := by
  rw [List.get?_eq_getElem?, List.getElem?_eq_getElem h, List.getD_eq_getElem?_getD,
    List.getElem?_eq_getElem h]
  rfl

theorem cond_col {l : List String} {i j : Nat} (h : j ∈ b2j l (l.getD i "")) :
    j ∈ b2j l (l.getD j "") := by
  rw [getD_of_get? (b2j_mem_get h)]
  exact h

theorem cond_row {l : List String} {i j : Nat} (h : j ∈ b2j l (l.getD i ""))
    (hi : i < l.length) : i ∈ b2j l (l.getD i "") :=
  b2j_fiber h (get?_getD_self hi)

theorem runl_le_col (l : List String) : ∀ i j, runl l i j ≤ runl l j j := by
  intro i
  induction i using Nat.strong_induction_on with
  | _ i ih =>
    intro j
    by_cases hc : j ∈ b2j l (l.getD i "")
    · have hcd : j ∈ b2j l (l.getD j "") := cond_col hc
      rw [runl_eq l i j, if_pos hc, runl_eq l j j, if_pos hcd]
      by_cases hij : 0 < i ∧ 0 < j
      · rw [if_pos hij, if_pos (And.intro hij.2 hij.2)]
        exact Nat.succ_le_succ (ih (i - 1) (Nat.sub_lt hij.1 Nat.one_pos) (j - 1))
      · rw [if_neg hij]
        exact Nat.succ_le_succ (Nat.zero_le _)
    · rw [runl_eq l i j, if_neg hc]
      exact Nat.zero_le _

theorem runl_le_row (l : List String) : ∀ i, i < l.length →
    ∀ j, runl l i j ≤ runl l i i := by
  intro i
  induction i using Nat.strong_induction_on with
  | _ i ih =>
    intro hi j
    by_cases hc : j ∈ b2j l (l.getD i "")
    · have hcd : i ∈ b2j l (l.getD i "") := cond_row hc hi
      rw [runl_eq l i j, if_pos hc, runl_eq l i i, if_pos hcd]
      by_cases hij : 0 < i ∧ 0 < j
      · rw [if_pos hij, if_pos (And.intro hij.1 hij.1)]
        refine Nat.succ_le_succ (ih (i - 1) (Nat.sub_lt hij.1 Nat.one_pos) ?_ (j - 1))
        omega
      · rw [if_neg hij]
        exact Nat.succ_le_succ (Nat.zero_le _)
    · rw [runl_eq l i j, if_neg hc]
      exact Nat.zero_le _

theorem runl_diag_le (l : List String) : ∀ i, runl l i i ≤ i + 1 := by
  intro i
  induction i using Nat.strong_induction_on with
  | _ i ih =>
    rw [runl_eq]
    by_cases hc : i ∈ b2j l (l.getD i "")
    · rw [if_pos hc]
      by_cases hii : 0 < i ∧ 0 < i
      · rw [if_pos hii]
        have := ih (i - 1) (Nat.sub_lt hii.1 Nat.one_pos)
        omega
      · rw [if_neg hii]
        omega
    · rw [if_neg hc]
      omega

theorem flm_step_inv (l : List String) (i : Nat) (hi : i < l.length)
    (oldLen : Nat → Nat)
    (hOld : ∀ j, oldLen j = if 0 < i then runl l (i - 1) j else 0)
    (pre suf : List Nat) (j : Nat)
    (hsplit : b2j l (l.getD i "") = pre ++ j :: suf)
    (st : FlmState) (hst : InnerInv l i pre st) :
    InnerInv l i (pre ++ [j]) (flmStep oldLen i st j) := by
  obtain ⟨len0, best⟩ := st
  obtain ⟨bi, bj2, bs⟩ := best
  obtain ⟨hd, hb, hrows, hmap, hpre⟩ := hst
  have hdd : bi = bj2 := Eq.symm hd
  subst hdd
  have hbb : bi + bs ≤ l.length := hb
  have hrows2 : ∀ i2, i2 < i → runl l i2 i2 ≤ bs := hrows
  have hmap2 : ∀ j2, len0 j2 = if j2 ∈ pre then runl l i j2 else 0 := hmap
  have hpre2 : ∀ j2 ∈ pre, runl l i j2 ≤ bs := hpre
  have hj : j ∈ b2j l (l.getD i "") := by
    rw [hsplit]
    exact List.mem_append_right pre (List.mem_cons_self j suf)
  have hk : (if j = 0 then 0 else oldLen (j - 1)) + 1 = runl l i j := by
    rw [runl_eq l i j, if_pos hj]
    cases j with
    | zero =>
        rw [if_pos rfl, if_neg (by omega : ¬(0 < i ∧ 0 < 0))]
    | succ j0 =>
        rw [if_neg (by omega : ¬(j0 + 1 = 0)), hOld (j0 + 1 - 1)]
        by_cases hip : 0 < i
        · rw [if_pos hip, if_pos (And.intro hip (Nat.succ_pos j0))]
        · rw [if_neg hip, if_neg (fun hh => hip hh.1)]
  have hstep : flmStep oldLen i (len0, (bi, bi, bs)) j =
      (fun j2 => if j2 = j then runl l i j else len0 j2,
        if bs < runl l i j then (i + 1 - runl l i j, j + 1 - runl l i j, runl l i j)
        else (bi, bi, bs)) := by
    simp only [flmStep, hk]
  rw [hstep]
  by_cases hlt : bs < runl l i j
  · have hji : j = i := by
      rcases Nat.lt_trichotomy j i with hc | hc | hc
      · have h1 := runl_le_col l i j
        have h2 := hrows2 j hc
        omega
      · exact hc
      · exfalso
        have hmemi : i ∈ b2j l (l.getD i "") := cond_row hj hi
        have hsort := b2j_sorted l (l.getD i "")
        rw [hsplit] at hmemi hsort
        obtain ⟨-, hp2, -⟩ := List.pairwise_append.mp hsort
        rcases List.mem_append.mp hmemi with hip | hic
        · have h1 := hpre2 i hip
          have h2 := runl_le_row l i hi j
          omega
        · rcases List.mem_cons.mp hic with hie | hisuf
          · omega
          · have := (List.pairwise_cons.mp hp2).1 i hisuf
            omega
    subst hji
    rw [if_pos hlt]
    have hkle : runl l j j ≤ j + 1 := runl_diag_le l j
    refine ⟨rfl, ?_, ?_, ?_, ?_⟩
    · show j + 1 - runl l j j + runl l j j ≤ l.length
      omega
    · intro i2 hi2
      show runl l i2 i2 ≤ runl l j j
      have := hrows2 i2 hi2
      omega
    · intro j2
      show (if j2 = j then runl l j j else len0 j2) =
        (if j2 ∈ pre ++ [j] then runl l j j2 else 0)
      by_cases hj2 : j2 = j
      · subst hj2
        rw [if_pos rfl, if_pos (List.mem_append_right pre (List.mem_cons_self j2 []))]
      · rw [if_neg hj2, hmap2 j2]
        by_cases hmm : j2 ∈ pre
        · rw [if_pos hmm, if_pos (List.mem_append_left _ hmm)]
        · rw [if_neg hmm, if_neg (fun hcon => by
            rcases List.mem_append.mp hcon with h | h
            · exact hmm h
            · exact hj2 (List.mem_singleton.mp h))]
    · intro j2 hj2
      show runl l j j2 ≤ runl l j j
      rcases List.mem_append.mp hj2 with h | h
      · have := hpre2 j2 h
        omega
      · rw [List.mem_singleton.mp h]
  · rw [if_neg hlt]
    refine ⟨rfl, hbb, hrows2, ?_, ?_⟩
    · intro j2
      show (if j2 = j then runl l i j else len0 j2) =
        (if j2 ∈ pre ++ [j] then runl l i j2 else 0)
      by_cases hj2 : j2 = j
      · subst hj2
        rw [if_pos rfl, if_pos (List.mem_append_right pre (List.mem_cons_self j2 []))]
      · rw [if_neg hj2, hmap2 j2]
        by_cases hmm : j2 ∈ pre
        · rw [if_pos hmm, if_pos (List.mem_append_left _ hmm)]
        · rw [if_neg hmm, if_neg (fun hcon => by
            rcases List.mem_append.mp hcon with h | h
            · exact hmm h
            · exact hj2 (List.mem_singleton.mp h))]
    · intro j2 hj2
      show runl l i j2 ≤ bs
      rcases List.mem_append.mp hj2 with h | h
      · exact hpre2 j2 h
      · rw [List.mem_singleton.mp h]
        omega

theorem flm_inner (l : List String) (i : Nat) (hi : i < l.length)
    (oldLen : Nat → Nat)
    (hOld : ∀ j, oldLen j = if 0 < i then runl l (i - 1) j else 0) :
    ∀ suf pre : List Nat, b2j l (l.getD i "") = pre ++ suf →
      ∀ st : FlmState, InnerInv l i pre st →
      InnerInv l i (pre ++ suf) (suf.foldl (flmStep oldLen i) st) := by
  intro suf
  induction suf with
  | nil =>
      intro pre hsplit st hst
      simpa using hst
  | cons j suf ihs =>
      intro pre hsplit st hst
      have h1 : InnerInv l i (pre ++ [j]) (flmStep oldLen i st j) :=
        flm_step_inv l i hi oldLen hOld pre suf j hsplit st hst
      have h2 := ihs (pre ++ [j])
        (hsplit.trans (List.append_cons pre j suf)) _ h1
      rw [List.foldl_cons]
      rw [List.append_assoc] at h2
      simpa using h2

theorem flm_outer (l : List String) : ∀ m, m ≤ l.length →
    OuterInv l m ((List.range' 0 m).foldl (flmRow l (b2j l) 0 l.length)
      (fun _ => 0, (0, 0, 0))) := by
  intro m
  induction m with
  | zero =>
      intro _
      rw [show List.range' 0 0 = [] from rfl, List.foldl_nil]
      refine ⟨rfl, ?_, ?_, fun j => ?_⟩
      · show 0 + 0 ≤ l.length
        omega
      · intro i2 hi2
        omega
      · simp
  | succ m ihm =>
      intro hm1
      obtain ⟨hd, hb, hrows, hmap⟩ := ihm (by omega)
      rw [List.range'_1_concat, List.foldl_append, List.foldl_cons, List.foldl_nil,
        Nat.zero_add]
      rw [flmRow, rowJs_b2j]
      have hmlen : m < l.length := by omega
      have hinit : InnerInv l m []
          (fun _ => 0, ((List.range' 0 m).foldl (flmRow l (b2j l) 0 l.length)
            (fun _ => 0, (0, 0, 0))).2) := by
        exact ⟨hd, hb, hrows, fun j => by simp, by simp⟩
      have hres := flm_inner l m hmlen _ hmap (b2j l (l.getD m "")) [] rfl _ hinit
      rw [List.nil_append] at hres
      obtain ⟨hd2, hb2, hrows2, hmap2, hdom2⟩ := hres
      refine ⟨hd2, hb2, ?_, ?_⟩
      · intro i2 hi2
        by_cases hieq : i2 = m
        · subst hieq
          by_cases hmem : i2 ∈ b2j l (l.getD i2 "")
          · exact hdom2 i2 hmem
          · rw [runl_zero hmem]
            omega
        · exact hrows2 i2 (by omega)
      · intro j
        rw [hmap2 j]
        by_cases hmem : j ∈ b2j l (l.getD m "")
        · rw [if_pos hmem, if_pos (by omega : 0 < m + 1)]
          rfl
        · rw [if_neg hmem, if_pos (by omega : 0 < m + 1)]
          exact (runl_zero hmem).symm

theorem triple_eta {t : Nat × Nat × Nat} (h : t.2.1 = t.1) : t = (t.1, t.1, t.2.2) := by
  obtain ⟨a, b, c⟩ := t
  have hba : b = a := h
  subst hba
  rfl

theorem extendBack_self (l : List String) :
    ∀ fuel p s, p ≤ fuel → extendBack l l 0 0 fuel (p, p, s) = (0, 0, s + p) := by
  intro fuel
  induction fuel with
  | zero =>
      intro p s hp
      have hp0 : p = 0 := by omega
      subst hp0
      rfl
  | succ fuel ihf =>
      intro p s hp
      by_cases h0 : 0 < p
      · simp only [extendBack]
        rw [if_pos (show 0 < p ∧ 0 < p ∧ isbjunk (l.getD (p - 1) "") = false ∧ True from
          ⟨h0, h0, rfl, trivial⟩)]
        rw [ihf (p - 1) (s + 1) (by omega)]
        have harith : s + 1 + (p - 1) = s + p := by omega
        rw [harith]
      · simp only [extendBack]
        rw [if_neg (fun hc => h0 hc.1)]
        have hp0 : p = 0 := by omega
        subst hp0
        rfl

theorem extendFwd_self (l : List String) :
    ∀ fuel s, s ≤ l.length → l.length - s ≤ fuel →
      extendFwd l l l.length l.length fuel (0, 0, s) = (0, 0, l.length) := by
  intro fuel
  induction fuel with
  | zero =>
      intro s hs hf
      have hse : s = l.length := by omega
      subst hse
      rfl
  | succ fuel ihf =>
      intro s hs hf
      by_cases hlt : s < l.length
      · simp only [extendFwd]
        rw [if_pos (show 0 + s < l.length ∧ 0 + s < l.length ∧
            isbjunk (l.getD (0 + s) "") = false ∧ True from
          ⟨by omega, by omega, rfl, trivial⟩)]
        exact ihf (s + 1) (by omega) (by omega)
      · simp only [extendFwd]
        rw [if_neg (fun hc => absurd hc.1 (by omega))]
        have hse : s = l.length := by omega
        subst hse
        rfl

theorem extendBackJunk_id (a b : List String) (alo blo : Nat) :
    ∀ fuel st, extendBackJunk a b alo blo fuel st = st := by
  intro fuel st
  cases fuel with
  | zero => rfl
  | succ fuel =>
      obtain ⟨bi, bj2, bs⟩ := st
      simp [extendBackJunk, isbjunk]

theorem extendFwdJunk_id (a b : List String) (ahi bhi : Nat) :
    ∀ fuel st, extendFwdJunk a b ahi bhi fuel st = st := by
  intro fuel st
  cases fuel with
  | zero => rfl
  | succ fuel =>
      obtain ⟨bi, bj2, bs⟩ := st
      simp [extendFwdJunk, isbjunk]

theorem findLongestMatch_self (l : List String) :
    findLongestMatch l l (b2j l) 0 l.length 0 l.length = (0, 0, l.length) := by
  obtain ⟨hd, hb, -, -⟩ := flm_outer l l.length (le_refl _)
  have hdF : (flmMain l (b2j l) 0 l.length 0 l.length).2.1 =
      (flmMain l (b2j l) 0 l.length 0 l.length).1 := hd
  have hbF : (flmMain l (b2j l) 0 l.length 0 l.length).1 +
      (flmMain l (b2j l) 0 l.length 0 l.length).2.2 ≤ l.length := hb
  obtain ⟨p, s, hm, hps⟩ : ∃ p s,
      flmMain l (b2j l) 0 l.length 0 l.length = (p, p, s) ∧ p + s ≤ l.length :=
    ⟨_, _, triple_eta hdF, hbF⟩
  simp only [findLongestMatch, hm]
  rw [extendBack_self l p p s (le_refl p)]
  rw [extendFwd_self l l.length (s + p) (by omega) (by omega)]
  rw [extendBackJunk_id, extendFwdJunk_id]

theorem mbLoop_self (l : List String) :
    mbLoop l l (b2j l) (l.length + l.length + 2) [(0, l.length, 0, l.length)] [] =
      if l.length = 0 then [] else [(0, 0, l.length)] := by
  rw [show l.length + l.length + 2 = l.length + l.length + 1 + 1 from rfl]
  simp [mbLoop, findLongestMatch_self]

theorem getMatchingBlocks_self (l : List String) :
    getMatchingBlocks l l =
      (if l.length = 0 then [] else [(0, 0, l.length)]) ++ [(l.length, l.length, 0)] := by
  simp only [getMatchingBlocks]
  rw [mbLoop_self]
  by_cases hl : l.length = 0
  · rw [if_pos hl]
    simp [blockSort, collapseAdjacent]
  · rw [if_neg hl]
    simp [blockSort, blockInsert, collapseAdjacent, hl]

theorem getOpcodes_self (l : List String) :
    getOpcodes l l =
      if l.length = 0 then [] else [⟨"equal", 0, l.length, 0, l.length⟩] := by
  simp only [getOpcodes]
  rw [getMatchingBlocks_self]
  by_cases hl : l.length = 0
  · rw [if_pos hl]
    simp [opcodesAux, hl]
  · rw [if_neg hl]
    simp [opcodesAux, hl]

theorem getGroupedOpcodes_self (l : List String) : getGroupedOpcodes l l 3 = [] := by
  simp only [getGroupedOpcodes]
  rw [getOpcodes_self]
  by_cases hl : l.length = 0
  · rw [if_pos hl]
    simp [trimHead, trimLast, groupsAux]
  · rw [if_neg hl]
    rw [if_neg (by simp : ¬([(⟨"equal", 0, l.length, 0, l.length⟩ : Opcode)] = []))]
    have h1 : trimHead 3 [(⟨"equal", 0, l.length, 0, l.length⟩ : Opcode)] =
        [⟨"equal", max 0 (l.length - 3), l.length, max 0 (l.length - 3), l.length⟩] := by
      simp [trimHead]
    have h2 : trimLast 3 [(⟨"equal", max 0 (l.length - 3), l.length,
        max 0 (l.length - 3), l.length⟩ : Opcode)] =
        [⟨"equal", max 0 (l.length - 3), min l.length (max 0 (l.length - 3) + 3),
          max 0 (l.length - 3), min l.length (max 0 (l.length - 3) + 3)⟩] := by
      simp [trimLast]
    rw [h1, h2]
    rw [groupsAux, if_neg (fun hc => by
      have hx : 3 + 3 < min l.length (max 0 (l.length - 3) + 3) - max 0 (l.length - 3) :=
        hc.2
      omega)]
    rw [List.nil_append]
    rw [groupsAux, if_neg (fun hc => hc.2 (And.intro rfl rfl))]

theorem unifiedDiff_self (a : List String) (f t : String) : unifiedDiff a a f t = [] := by
  simp only [unifiedDiff]
  rw [getGroupedOpcodes_self]

theorem detect_changes_lines_eq {o n : String} (p : String)
    (h : splitlines o = splitlines n) :
    ChangeDetector.detect_changes o n p =
      { changed := false, files_changed := [], reason := "No changes detected",
        change_summary := "The file content is identical.",
        added_lines := 0, removed_lines := 0, modified_lines := 0 } := by
  simp only [ChangeDetector.detect_changes]
  rw [h, unifiedDiff_self, if_pos rfl]

theorem detect_changes_self (c p : String) :
    ChangeDetector.detect_changes c c p =
      { changed := false, files_changed := [], reason := "No changes detected",
        change_summary := "The file content is identical.",
        added_lines := 0, removed_lines := 0, modified_lines := 0 } :=
  detect_changes_lines_eq p rfl

theorem compare_signatures_self (s : FunctionSignature) :
    BreakingChangeDetector.compare_signatures s s = none := by
  simp only [BreakingChangeDetector.compare_signatures]
  rw [if_neg (lt_irrefl _), if_neg (lt_irrefl _),
    if_neg (show ¬(setInter s.args s.args ≠ [] ∧
        List.take (setInter s.args s.args).length s.args ≠
          List.take (setInter s.args s.args).length s.args) from fun hc => hc.2 rfl),
    if_neg (show ¬(s.varargs = true ∧ s.varargs = false) from
      fun hc => absurd (hc.1.symm.trans hc.2) (by decide)),
    if_neg (show ¬(s.kwargs = true ∧ s.kwargs = false) from
      fun hc => absurd (hc.1.symm.trans hc.2) (by decide))]
  rw [if_neg (fun hc => hc rfl)]

theorem breakingEvents_self (c p : String) (t : Option PyAst) :
    BreakingChangeDetector.breakingEvents c c p t t = [] := by
  rw [List.eq_nil_iff_forall_not_mem]
  intro e he
  simp only [BreakingChangeDetector.breakingEvents,
    BreakingChangeDetector.detect_removed_public_attributes, List.mem_append] at he
  rcases he with ((h | h) | h) | h
  · rcases List.mem_map.mp h with ⟨nm, hnm, -⟩
    obtain ⟨hmem, hdec⟩ := List.mem_filter.mp hnm
    exact (of_decide_eq_true hdec) hmem
  · rcases List.mem_filterMap.mp h with ⟨nm, -, hfm⟩
    cases hF : BreakingChangeDetector.lookupSig
        (BreakingChangeDetector.extract_function_signatures c t) nm with
    | none => simp [hF] at hfm
    | some s => simp [hF, compare_signatures_self] at hfm
  · rcases List.mem_map.mp h with ⟨nm, hnm, -⟩
    obtain ⟨hmem, hdec⟩ := List.mem_filter.mp hnm
    exact (of_decide_eq_true hdec) hmem
  · rw [setDiff_self] at h
    simp at h

theorem detect_breaking_changes_self_flag (c p : String) (t : Option PyAst) :
    (BreakingChangeDetector.detect_breaking_changes c c p t t).breaking_change = false := by
  rw [BreakingChangeDetector.dbc_breaking, breakingEvents_self]
  rfl

theorem removedExports_self (c : String) : ImpactAnalyzer.removedExports c c = [] := by
  simp only [ImpactAnalyzer.removedExports, setDiff_self]

theorem changedExports_self (c : String) : ImpactAnalyzer.changedExports c c = [] := by
  simp only [ImpactAnalyzer.changedExports, ImpactAnalyzer.find_changed_exports]
  rw [List.filter_eq_nil_iff]
  intro e he
  simp only [decide_eq_true_eq]
  intro hc
  exact hc.2.2 rfl

theorem detect_api_changes_self (c : String) :
    ImpactAnalyzer.detect_api_changes c c = [] := by
  simp only [ImpactAnalyzer.detect_api_changes]
  rw [if_neg (fun hc => hc rfl), if_neg (fun hc => hc rfl)]
  rfl

theorem detect_config_changes_self (c : String) :
    ImpactAnalyzer.detect_config_changes c c = [] := by
  simp only [ImpactAnalyzer.detect_config_changes, setDiff_self]
  rw [if_neg (fun hc => hc rfl), if_neg (fun hc => hc rfl)]
  rfl

theorem detect_error_handling_changes_self (c : String) :
    ImpactAnalyzer.detect_error_handling_changes c c = [] := by
  simp only [ImpactAnalyzer.detect_error_handling_changes]
  rw [if_neg (fun hc => hc rfl), setEq_self,
    if_neg (by decide : ¬(true = false))]
  rfl

theorem impactsCore_self (c p : String) (ps : Option (List String)) (t : Option PyAst) :
    ImpactAnalyzer.impactsCore c c p ps t t = [] := by
  simp only [ImpactAnalyzer.impactsCore]
  rw [detect_breaking_changes_self_flag, if_neg (by decide : ¬(false = true))]
  rw [removedExports_self, if_neg (fun hc => hc rfl), if_neg (fun hc => hc.1 rfl)]
  rw [changedExports_self, if_neg (fun hc => hc rfl)]
  rw [detect_api_changes_self, detect_config_changes_self,
    detect_error_handling_changes_self]
  rfl

theorem impactsFull_self (c p : String) (ps : Option (List String)) (t : Option PyAst) :
    ImpactAnalyzer.impactsFull c c p ps t t = [] := by
  simp only [ImpactAnalyzer.impactsFull]
  rw [impactsCore_self, detect_changes_self]
  rw [if_neg (fun hc => Bool.noConfusion hc.2)]
  rfl

theorem pyDefault_nil (d : List String) : ImpactAnalyzer.pyDefault [] d = d := by
  simp [ImpactAnalyzer.pyDefault]

/-! ## Shape lemmas for detect_changes and the combined record -/

theorem dc_shape (o n p : String) :
    ((ChangeDetector.detect_changes o n p).changed = false ∧
      (ChangeDetector.detect_changes o n p).added_lines = 0 ∧
      (ChangeDetector.detect_changes o n p).removed_lines = 0 ∧
      (ChangeDetector.detect_changes o n p).files_changed = [] ∧
      (ChangeDetector.detect_changes o n p).modified_lines = 0) ∨
    ((ChangeDetector.detect_changes o n p).changed = true ∧
      (ChangeDetector.detect_changes o n p).files_changed = [p] ∧
      (ChangeDetector.detect_changes o n p).modified_lines =
        (ChangeDetector.detect_changes o n p).removed_lines +
          (ChangeDetector.detect_changes o n p).added_lines) := by
  simp only [ChangeDetector.detect_changes]
  split
  · left
    exact ⟨rfl, rfl, rfl, rfl, rfl⟩
  · right
    exact ⟨rfl, rfl, rfl⟩

theorem acc_changed (o n p : String) (ps : Option (List String)) (a b : Option PyAst) :
    (analyze_code_changes o n p ps a b).changed =
      (ChangeDetector.detect_changes o n p).changed := by
  simp only [analyze_code_changes]

theorem acc_added (o n p : String) (ps : Option (List String)) (a b : Option PyAst) :
    (analyze_code_changes o n p ps a b).added_lines =
      (ChangeDetector.detect_changes o n p).added_lines := by
  simp only [analyze_code_changes]

theorem acc_removed (o n p : String) (ps : Option (List String)) (a b : Option PyAst) :
    (analyze_code_changes o n p ps a b).removed_lines =
      (ChangeDetector.detect_changes o n p).removed_lines := by
  simp only [analyze_code_changes]

theorem acc_severity (o n p : String) (ps : Option (List String)) (a b : Option PyAst) :
    (analyze_code_changes o n p ps a b).severity =
      (BreakingChangeDetector.detect_breaking_changes o n p a b).severity := by
  simp only [analyze_code_changes]

theorem acc_breaking (o n p : String) (ps : Option (List String)) (a b : Option PyAst) :
    (analyze_code_changes o n p ps a b).breaking_change =
      (BreakingChangeDetector.detect_breaking_changes o n p a b).breaking_change := by
  simp only [analyze_code_changes]

theorem acc_impact (o n p : String) (ps : Option (List String)) (a b : Option PyAst) :
    (analyze_code_changes o n p ps a b).impact =
      (ImpactAnalyzer.analyze_impact o n p ps a b).impact := by
  simp only [analyze_code_changes]

theorem acc_users (o n p : String) (ps : Option (List String)) (a b : Option PyAst) :
    (analyze_code_changes o n p ps a b).affected_users =
      (ImpactAnalyzer.analyze_impact o n p ps a b).affected_users := by
  simp only [analyze_code_changes]

theorem acc_recs (o n p : String) (ps : Option (List String)) (a b : Option PyAst) :
    (analyze_code_changes o n p ps a b).recommendations =
      (ImpactAnalyzer.analyze_impact o n p ps a b).recommendations := by
  simp only [analyze_code_changes]

theorem ai_has_breaking (o n p : String) (ps : Option (List String)) (a b : Option PyAst) :
    (ImpactAnalyzer.analyze_impact o n p ps a b).has_breaking_changes =
      (BreakingChangeDetector.detect_breaking_changes o n p a b).breaking_change := by
  simp only [ImpactAnalyzer.analyze_impact]

/-- C2 counterexample: for old content empty and new content "++ x\n" the
unified diff's only content line is "+++ x\n", which is filtered out as a
file-header line, so the result has changed = true while added_lines and
removed_lines are both zero — refuting the claimed equivalence
changed == (added_lines > 0 or removed_lines > 0). -/
theorem c2_counterexample :
    (ChangeDetector.detect_changes "" "++ x\n" "f").changed = true ∧
    (ChangeDetector.detect_changes "" "++ x\n" "f").added_lines = 0 ∧
    (ChangeDetector.detect_changes "" "++ x\n" "f").removed_lines = 0 ∧
    ¬((ChangeDetector.detect_changes "" "++ x\n" "f").changed = true ↔
      (0 < (ChangeDetector.detect_changes "" "++ x\n" "f").added_lines ∨
        0 < (ChangeDetector.detect_changes "" "++ x\n" "f").removed_lines)) := by
  decide

/-- C2, corrected: positive added or removed counts imply changed, identical
line sequences give changed = false with zero counts, and changed = true
forces the two line sequences to differ; the claimed full equivalence fails
because a content line that itself starts with a diff-header prefix is
excluded from both counters (see the counterexample). -/
theorem c2_changed_iff_counts (o n p : String) :
    ((0 < (ChangeDetector.detect_changes o n p).added_lines ∨
      0 < (ChangeDetector.detect_changes o n p).removed_lines) →
      (ChangeDetector.detect_changes o n p).changed = true) ∧
    (splitlines o = splitlines n →
      (ChangeDetector.detect_changes o n p).changed = false ∧
      (ChangeDetector.detect_changes o n p).added_lines = 0 ∧
      (ChangeDetector.detect_changes o n p).removed_lines = 0) ∧
    ((ChangeDetector.detect_changes o n p).changed = true →
      splitlines o ≠ splitlines n) := by
  refine ⟨?_, ?_, ?_⟩
  · intro h
    rcases dc_shape o n p with ⟨-, ha, hr, -, -⟩ | ⟨hc, -, -⟩
    · rw [ha, hr] at h
      rcases h with h | h <;> omega
    · exact hc
  · intro hEq
    rw [detect_changes_lines_eq p hEq]
    exact ⟨rfl, rfl, rfl⟩
  · intro hch hEq
    rw [detect_changes_lines_eq p hEq] at hch
    exact absurd hch (by decide)

/-- Witness for the corrected C2 at concrete inputs: an insertion sets
changed, and equal contents leave it unset. -/
theorem c2_witness :
    (ChangeDetector.detect_changes "" "a\n" "f").changed = true ∧
    (ChangeDetector.detect_changes "x" "x" "f").changed = false :=
  ⟨(c2_changed_iff_counts "" "a\n" "f").1 (Or.inl (by decide)),
   ((c2_changed_iff_counts "x" "x" "f").2.1 rfl).1⟩

/-- C4: the diff of any content against itself reports changed = false, and
on identical old/new content the combined entry point analyze_code_changes
returns changed = false, breaking_change = false and the default impact
list. -/
theorem c4_identical_inputs (c p : String) (ps : Option (List String)) (t : Option PyAst) :
    (ChangeDetector.detect_changes c c p).changed = false ∧
    (analyze_code_changes c c p ps t t).changed = false ∧
    (analyze_code_changes c c p ps t t).breaking_change = false ∧
    (analyze_code_changes c c p ps t t).impact = ["No significant impact detected"] := by
  refine ⟨?_, ?_, ?_, ?_⟩
  · rw [detect_changes_self]
  · rw [acc_changed, detect_changes_self]
  · rw [acc_breaking]
    exact detect_breaking_changes_self_flag c p t
  · rw [acc_impact, ImpactAnalyzer.ai_impact, impactsFull_self, pyDefault_nil]

/-- C1: every public operation is a total function of its string inputs
(each embedded operation below is a total Lean function, including on the
parse-failure oracle none, where signature extraction falls back to the
regex scanner), and each returns a well-formed record: consistent counts
and file lists, a severity inside its declared range, a breaking flag that
mirrors the event list, and non-empty impact, affected_users and
recommendations lists. -/
theorem c1_operations_total_wellformed (o n p : String) (ps : Option (List String))
    (a b : Option PyAst) :
    ((ChangeDetector.detect_changes o n p).changed = false →
      (ChangeDetector.detect_changes o n p).added_lines = 0 ∧
      (ChangeDetector.detect_changes o n p).removed_lines = 0 ∧
      (ChangeDetector.detect_changes o n p).files_changed = []) ∧
    ((ChangeDetector.detect_changes o n p).changed = true →
      (ChangeDetector.detect_changes o n p).files_changed = [p]) ∧
    validSeverity (BreakingChangeDetector.detect_breaking_changes o n p a b).severity ∧
    ((BreakingChangeDetector.detect_breaking_changes o n p a b).breaking_change = true ↔
      (BreakingChangeDetector.detect_breaking_changes o n p a b).changes ≠ []) ∧
    (ImpactAnalyzer.analyze_impact o n p ps a b).impact ≠ [] ∧
    (ImpactAnalyzer.analyze_impact o n p ps a b).affected_users ≠ [] ∧
    (ImpactAnalyzer.analyze_impact o n p ps a b).recommendations ≠ [] ∧
    (ImpactAnalyzer.analyze_impact o n p ps a b).has_breaking_changes =
      (BreakingChangeDetector.detect_breaking_changes o n p a b).breaking_change ∧
    validSeverity (analyze_code_changes o n p ps a b).severity ∧
    ((analyze_code_changes o n p ps a b).changed = false →
      (analyze_code_changes o n p ps a b).added_lines = 0 ∧
      (analyze_code_changes o n p ps a b).removed_lines = 0) ∧
    (analyze_code_changes o n p ps a b).impact ≠ [] ∧
    (analyze_code_changes o n p ps a b).affected_users ≠ [] ∧
    (analyze_code_changes o n p ps a b).recommendations ≠ [] ∧
    (BreakingChangeDetector.extract_function_signatures o none =
      BreakingChangeDetector.extract_functions_regex o) := by
  have hvalid : validSeverity
      (BreakingChangeDetector.detect_breaking_changes o n p a b).severity := by
    rcases BreakingChangeDetector.severity_cases o n p a b with h | h | h
    · exact Or.inl h
    · exact Or.inr (Or.inr (Or.inl h))
    · exact Or.inr (Or.inr (Or.inr h))
  refine ⟨?_, ?_, hvalid, BreakingChangeDetector.breaking_iff_events o n p a b,
    ?_, ?_, ?_, ai_has_breaking o n p ps a b, ?_, ?_, ?_, ?_, ?_, rfl⟩
  · intro h
    rcases dc_shape o n p with ⟨_, h1, h2, h3, _⟩ | ⟨h1, _, _⟩
    · exact ⟨h1, h2, h3⟩
    · rw [h] at h1; cases h1
  · intro h
    rcases dc_shape o n p with ⟨h1, _⟩ | ⟨_, h2, _⟩
    · rw [h] at h1; cases h1
    · exact h2
  · rw [ImpactAnalyzer.ai_impact]
    exact ImpactAnalyzer.pyDefault_ne_nil (by simp)
  · rw [ImpactAnalyzer.ai_users]
    exact ImpactAnalyzer.pyDefaultDedup_ne_nil (by simp)
  · rw [ImpactAnalyzer.ai_recs]
    exact ImpactAnalyzer.pyDefault_ne_nil (by simp)
  · rw [acc_severity]
    exact hvalid
  · intro h
    rw [acc_changed] at h
    rw [acc_added, acc_removed]
    rcases dc_shape o n p with ⟨_, h1, h2, _⟩ | ⟨h1, _⟩
    · exact ⟨h1, h2⟩
    · rw [h] at h1; cases h1
  · rw [acc_impact, ImpactAnalyzer.ai_impact]
    exact ImpactAnalyzer.pyDefault_ne_nil (by simp)
  · rw [acc_users, ImpactAnalyzer.ai_users]
    exact ImpactAnalyzer.pyDefaultDedup_ne_nil (by simp)
  · rw [acc_recs, ImpactAnalyzer.ai_recs]
    exact ImpactAnalyzer.pyDefault_ne_nil (by simp)

/-- C1 witness: the well-formedness facts applied at a concrete unchanged
input, with the implication hypotheses discharged by evaluation. -/
theorem c1_witness :
    (ChangeDetector.detect_changes "x = 1" "x = 1" "p").added_lines = 0 ∧
    validSeverity (analyze_code_changes "x = 1" "x = 1" "p" none
      (some ⟨[], []⟩) (some ⟨[], []⟩)).severity ∧
    (analyze_code_changes "x = 1" "x = 1" "p" none
      (some ⟨[], []⟩) (some ⟨[], []⟩)).impact ≠ [] := by
  have h := c1_operations_total_wellformed "x = 1" "x = 1" "p" none
    (some ⟨[], []⟩) (some ⟨[], []⟩)
  refine ⟨(h.1 (by decide)).1, h.2.2.2.2.2.2.2.2.1, h.2.2.2.2.2.2.2.2.2.2.1⟩

end ChangeIntel
